import Mathlib

/-!
# Verification of the "Play or Pass" (POP) card-game core

Shallow embedding of the game core of the POP repository:

* `src/lib/types.ts`      — `Card`, `Player` data model
* `src/lib/game.ts`       — `createDeck`, `shuffleDeck`
* `src/lib/ai-player.ts`  — `AIPlayer` (latest version, with the hidden
                            per-turn play counter)
* `src/components/Game.tsx` (latest version) — the turn state machine:
  `drawCard`, `smoothCardTransition`, `advanceToNextPlayer`,
  `handleColourGuess`, `handleKeepCard`, `handleChangeCard`,
  `handleHigherLowerGuess`, `handlePlay`, `handlePass`, `processTurnEnd`,
  `checkForWinner`, `handleGameStart`, `handlePlayAgain`,
  `processAIPlayOrPass`.

`shuffleDeck` is a uniformly random Fisher–Yates shuffle in the source; it
is modelled as an arbitrary function `shuffle : List Card → List Card`
together with the hypothesis that it permutes its input.  Calls to
`Math.random()` are modelled as explicit rational-number parameters.
React state updates inside one handler are modelled as a single atomic
update of a `Session` record.
-/

namespace POP

/-! ## Cards (`src/lib/types.ts`, `src/lib/game.ts`) -/

inductive Suit where
  | Hearts | Diamonds | Clubs | Spades
  deriving DecidableEq, Repr

inductive Rank where
  | R2 | R3 | R4 | R5 | R6 | R7 | R8 | R9 | R10
  | Jack | Queen | King | Ace
  deriving DecidableEq, Repr

structure Card where
  suit : Suit
  rank : Rank
  value : Nat
  deriving DecidableEq, Repr

/-- The `suits` array of `game.ts`. -/
def suits : List Suit := [.Hearts, .Diamonds, .Clubs, .Spades]

/-- The `ranks` array of `game.ts`. -/
def ranks : List Rank :=
  [.R2, .R3, .R4, .R5, .R6, .R7, .R8, .R9, .R10, .Jack, .Queen, .King, .Ace]

/-- The `rankValues` mapping of `game.ts`: Ace is high (14). -/
def rankValues : Rank → Nat
  | .R2 => 2 | .R3 => 3 | .R4 => 4 | .R5 => 5 | .R6 => 6 | .R7 => 7
  | .R8 => 8 | .R9 => 9 | .R10 => 10 | .Jack => 11 | .Queen => 12
  | .King => 13 | .Ace => 14

/-- `createDeck` of `game.ts`: one card per (suit, rank) pair. -/
def createDeck : List Card :=
  suits.flatMap fun suit => ranks.map fun rank =>
    { suit := suit, rank := rank, value := rankValues rank }

/-! ## Players (`src/lib/types.ts`, `src/components/GameSetup.tsx`)

`lives` is a JavaScript number; it is modelled as an integer because
`processTurnEnd` decrements it without a lower bound. -/

structure Player where
  id : String
  name : String
  lives : Int
  isComputer : Bool
  deriving DecidableEq, Repr

/-! ## AI decision engine (`src/lib/ai-player.ts`, latest version)

Probabilities, thresholds and delays are JavaScript numbers used only
through `+ - * < max min`; they are modelled as rationals.  Each call of
`Math.random()` becomes an explicit parameter. -/

inductive AIDifficulty where
  | easy | medium | hard
  deriving DecidableEq, Repr

inductive ColorBias where
  | red | black | none
  deriving DecidableEq, Repr

structure AIPersonality where
  name : String
  colorBias : ColorBias
  riskTolerance : ℚ
  keepCardThreshold : ℚ
  playAgainThreshold : ℚ
  deriving DecidableEq, Repr

/-- `DEFAULT_PERSONALITY` of `ai-player.ts`. -/
def DEFAULT_PERSONALITY : AIPersonality :=
  { name := "average", colorBias := .none, riskTolerance := 1/2,
    keepCardThreshold := 2/5, playAgainThreshold := 3/5 }

/-- `DIFFICULTY_MODIFIERS` of `ai-player.ts`.  Every tier overrides the
three numeric fields, so the spread-merge with `DEFAULT_PERSONALITY`
keeps only `name` and `colorBias` from the default. -/
def DIFFICULTY_MODIFIERS : AIDifficulty → (ℚ × ℚ × ℚ)
  | .easy => (3/10, 1/5, 2/5)
  | .medium => (1/2, 2/5, 3/5)
  | .hard => (7/10, 3/5, 4/5)

/-- The personality produced by `{...DEFAULT_PERSONALITY,
...DIFFICULTY_MODIFIERS[difficulty]}` in the `AIPlayer` constructor. -/
def mergedPersonality (d : AIDifficulty) : AIPersonality :=
  let m := DIFFICULTY_MODIFIERS d
  { DEFAULT_PERSONALITY with
    riskTolerance := m.1, keepCardThreshold := m.2.1,
    playAgainThreshold := m.2.2 }

/-- The mutable state of one `AIPlayer` instance (latest version of
`ai-player.ts`): personality, difficulty and the hidden per-turn play
counter, which the constructor initialises to 0. -/
structure AIPlayer where
  personality : AIPersonality
  difficulty : AIDifficulty
  playCountThisTurn : Nat
  deriving DecidableEq, Repr

/-- `new AIPlayer(difficulty)`. -/
def AIPlayer.create (d : AIDifficulty) : AIPlayer :=
  { personality := mergedPersonality d, difficulty := d,
    playCountThisTurn := 0 }

/-- `AIDecision` of `types.ts`. -/
structure AIDecision where
  choice : String
  delay : ℚ
  confidence : ℚ
  deriving DecidableEq, Repr

/-- The optional `GameState` argument of the AI decision methods
(`ai-player.ts`).  `Game.tsx` never passes it. -/
structure AIGameState where
  players : List Player
  currentPlayerIndex : Nat
  remainingCards : Nat
  deriving Repr

/-- The `Math.random()` samples consumed by one call of
`makePlayOrPassDecision`: the easy-difficulty jitter, the draw compared
against `playProbability`, and the draw inside the delay. -/
structure PRands where
  rEasy : ℚ
  rChoice : ℚ
  rDelay : ℚ
  deriving DecidableEq, Repr

/-- The `gameState`-awareness block of `makePlayOrPassDecision`
(`ai-player.ts` lines 250–282), applied to `playProbability`.
The source compares players by object identity (`p !== currentPlayer`);
identity is modelled by `id`.  `Math.max(...)` over an empty list would
be `-Infinity` in the source; that case is modelled by `getD 0` and is
never produced by the game (the current player is always alive). -/
def playOrPassGameStateAdjust (g : AIGameState) (p : ℚ) : ℚ :=
  match g.players[g.currentPlayerIndex]? with
  | Option.none => p
  | Option.some currentPlayer =>
    let alivePlayers := g.players.filter fun q => q.lives > 0
    let myLives := currentPlayer.lives
    let maxLives := ((alivePlayers.map fun q => q.lives).max?).getD 0
    let isLeading := myLives = maxLives
    let turnsToWait := alivePlayers.length - 1
    let p1 := if isLeading then p - 1/5
              else if myLives < maxLives - 1 then p + 3/10
              else p
    let p2 := if 3 < turnsToWait then p1 + 3/20 else p1
    if alivePlayers.length = 2 then
      match alivePlayers.find? fun q => q.id ≠ currentPlayer.id with
      | Option.some other =>
        if other.lives < myLives then p2 - 1/5 else p2 + 1/5
      | Option.none => p2
    else p2

/-- The `playProbability` computed by the main branch of
`makePlayOrPassDecision` (`ai-player.ts` lines 228–320): the
`playAgainThreshold` adjusted by game-state awareness, remaining lives,
card value, difficulty and risk tolerance, clamped to [0.1, 0.9].
`rEasy` is the `Math.random()` sample of the easy-difficulty jitter. -/
def playOrPassProbability (ai : AIPlayer) (currentCard : Card)
    (playerLives : Int) (gameState : Option AIGameState) (rEasy : ℚ) : ℚ :=
  let cardValue := currentCard.value
  let successProbability : ℚ :=
    if cardValue ≤ 3 then 7/10
    else if 12 ≤ cardValue then 7/10
    else if 4 ≤ cardValue ∧ cardValue ≤ 6 then 3/5
    else if 9 ≤ cardValue ∧ cardValue ≤ 11 then 3/5
    else if 7 ≤ cardValue ∧ cardValue ≤ 8 then 1/2
    else 1/2
  let continueValue := successProbability * 1 + (1 - successProbability) * (-1)
  let p0 := ai.personality.playAgainThreshold
  let p1 := match gameState with
            | Option.some g => playOrPassGameStateAdjust g p0
            | Option.none => p0
  let p2 := if playerLives = 1 then p1 - 2/5
            else if 3 ≤ playerLives then p1 + 1/5
            else p1
  let p3 := if 7 ≤ cardValue ∧ cardValue ≤ 8 then p2 - 1/5
            else if cardValue ≤ 3 ∨ 12 ≤ cardValue then p2 + 1/10
            else p2
  let p4 := if ai.difficulty = .easy then p3 + (rEasy - 1/2) * (2/5)
            else if ai.difficulty = .hard then
              (if 0 < continueValue then p3 + 1/5 else p3 - 1/5)
            else p3
  let p5 := p4 + (ai.personality.riskTolerance - 1/2) * (3/10)
  max (1/10) (min (9/10) p5)

/-- `AIPlayer.makePlayOrPassDecision` (`ai-player.ts` lines 211–334,
latest version).  Returns the decision together with the updated
`AIPlayer` state (the hidden counter increments exactly when the choice
is "Play"). -/
def AIPlayer.makePlayOrPassDecision (ai : AIPlayer) (currentCard : Card)
    (playerLives : Int) (totalPlayers : Nat) (gameState : Option AIGameState)
    (rs : PRands) : AIDecision × AIPlayer :=
  -- Hidden rule: CPU can only play a maximum of 2 times per turn
  if 2 ≤ ai.playCountThisTurn then
    ({ choice := "Pass", delay := 800 + rs.rDelay * 1200, confidence := 4/5 }, ai)
  else
    let cardValue := currentCard.value
    -- Hidden rule: CPU can only PLAY on 2, 3, King (13) or Ace (14)
    let isPlayableCard :=
      cardValue = 2 ∨ cardValue = 3 ∨ cardValue = 13 ∨ cardValue = 14
    if ¬ isPlayableCard then
      ({ choice := "Pass", delay := 800 + rs.rDelay * 1200, confidence := 7/10 }, ai)
    else
      let playProbability :=
        playOrPassProbability ai currentCard playerLives gameState rs.rEasy
      let choice := if rs.rChoice < playProbability then "Play" else "Pass"
      let ai1 := if choice = "Play" then
                   { ai with playCountThisTurn := ai.playCountThisTurn + 1 }
                 else ai
      ({ choice := choice, delay := 800 + rs.rDelay * 1200,
         confidence := |playProbability - 1/2| * 2 }, ai1)

/-- `AIPlayer.resetPlayCount` (`ai-player.ts` lines 372–374).  Defined in
the source with the comment "Reset play count when turn changes (hidden
rule enforcement)" but never invoked anywhere in the repository. -/
def AIPlayer.resetPlayCount (ai : AIPlayer) : AIPlayer :=
  { ai with playCountThisTurn := 0 }

/-! ## The turn state machine (`src/components/Game.tsx`, latest version)

All `useState` fields that carry game logic are collected in a `Session`
record; each event handler becomes a pure function `Session → Session`
(the `setTimeout`-staggered `setState` calls of one handler are applied
atomically).  Presentation-only state (animations, audio, viewport,
`cardKey`, `aiThinking` timers) is out of scope per the spec. -/

inductive GameState where
  | SETUP | AWAITING_COLOUR_GUESS | AWAITING_KEEP_OR_CHANGE
  | AWAITING_HIGHER_LOWER | PLAY_OR_PASS | SHOWING_RESULT
  | GAME_OVER | CREDITS
  deriving DecidableEq, Repr

inductive FailureReason where
  | INCORRECT_GUESS | SAME_VALUE_TIE
  deriving DecidableEq, Repr

inductive ColourChoice where
  | Red | Black
  deriving DecidableEq, Repr

inductive HLChoice where
  | Higher | Lower
  deriving DecidableEq, Repr

structure Session where
  players : List Player
  deck : List Card
  discardPile : List Card
  currentCard : Option Card
  currentPlayerIndex : Nat
  turnOwnerIndex : Option Nat
  gameState : GameState
  gameStarted : Bool
  failureReason : Option FailureReason
  aiPlayers : List (String × AIPlayer)
  message : String
  winnerName : String
  deriving DecidableEq, Repr

/-- The component's initial state (`useState` initialisers). -/
def initialSession : Session :=
  { players := [], deck := [], discardPile := [], currentCard := Option.none,
    currentPlayerIndex := 0, turnOwnerIndex := Option.none,
    gameState := .SETUP, gameStarted := false, failureReason := Option.none,
    aiPlayers := [], message := "Welcome to POP! Setup the game to start.",
    winnerName := "" }

/-- Lookup in the `aiPlayers` map (a `Map<string, AIPlayer>` keyed by
player id in the source). -/
def lookupAI (m : List (String × AIPlayer)) (k : String) : Option AIPlayer :=
  (m.find? fun e => e.1 = k).map fun e => e.2

/-- Pointwise update of the `aiPlayers` map (object mutation of the
stored `AIPlayer` in the source). -/
def setAI (m : List (String × AIPlayer)) (k : String) (v : AIPlayer) :
    List (String × AIPlayer) :=
  m.map fun e => if e.1 = k then (k, v) else e

/-- `drawCard` (`Game.tsx` lines 244–262).  JavaScript `Array.pop` takes
the card from the END of the array, so the top of the deck is the last
list element.  When the deck is empty the discard pile is shuffled into a
new deck and cleared; `pop` on an empty reshuffled deck returns
`undefined`, modelled as `none` (the `!` assertion in the source has no
runtime effect). -/
def drawCard (shuffle : List Card → List Card) (s : Session) :
    Option Card × Session :=
  match s.deck.getLast? with
  | Option.some card => (Option.some card, { s with deck := s.deck.dropLast })
  | Option.none =>
    let newShuffledDeck := shuffle s.discardPile
    match newShuffledDeck.getLast? with
    | Option.some card =>
      (Option.some card,
       { s with message := "Reshuffling the deck...",
                discardPile := [], deck := newShuffledDeck.dropLast })
    | Option.none =>
      (Option.none,
       { s with message := "Reshuffling the deck...",
                discardPile := [], deck := newShuffledDeck })

/-- `smoothCardTransition` (`Game.tsx` lines 264–283): the old current
card (if any) moves onto the discard pile and the drawn card becomes the
current card. -/
def smoothCardTransition (newCard : Card) (s : Session) : Session :=
  let s1 := match s.currentCard with
            | Option.some cc => { s with discardPile := s.discardPile ++ [cc] }
            | Option.none => s
  { s1 with currentCard := Option.some newCard }

/-- `advanceToNextPlayer` (`Game.tsx` lines 302–309): the next index,
cyclically from `currentPlayerIndex + 1`, whose player has lives > 0.
The source `while` loop never terminates when no player is alive; that
case is modelled as `none` (every caller runs after a winner check, so a
live player exists). -/
def advanceToNextPlayer (players : List Player) (i : Nat) : Option Nat :=
  (List.range players.length).findSome? fun k =>
    let idx := (i + 1 + k) % players.length
    match players[idx]? with
    | Option.some p => if p.lives > 0 then Option.some idx else Option.none
    | Option.none => Option.none

/-- `checkForWinner` (`Game.tsx` lines 356–367): the single remaining
player with lives > 0, if exactly one remains. -/
def checkForWinner (players : List Player) : Option Player :=
  let activePlayersArray := players.filter fun p => p.lives > 0
  if activePlayersArray.length = 1 then activePlayersArray.head?
  else Option.none

/-- `newPlayers[currentPlayerIndex].lives--` of `processTurnEnd`. -/
def decLife (players : List Player) (i : Nat) : List Player :=
  match players[i]? with
  | Option.some p => players.set i { p with lives := p.lives - 1 }
  | Option.none => players

/-- `isRed` test of `handleColourGuess`: suit Hearts or Diamonds. -/
def Card.isRed (c : Card) : Bool :=
  c.suit = Suit.Hearts ∨ c.suit = Suit.Diamonds

/-- `handleColourGuess` (`Game.tsx` lines 311–354).  Draws a card; on a
correct guess the same player proceeds to keep-or-change; on an incorrect
guess the guesser is recorded as turn owner and the next eligible player
becomes current.  No lives change.  If the draw produces no card the
handler returns early (`if (!nextCard) return`). -/
def handleColourGuess (shuffle : List Card → List Card) (guess : ColourChoice)
    (s : Session) : Session :=
  match drawCard shuffle s with
  | (Option.none, s1) => s1
  | (Option.some nextCard, s1) =>
    let isGuessCorrect := (guess = .Red ∧ nextCard.isRed) ∨
                          (guess = .Black ∧ ¬ nextCard.isRed)
    let s2 := smoothCardTransition nextCard s1
    if isGuessCorrect then
      { s2 with gameState := .AWAITING_KEEP_OR_CHANGE,
                message := "Correct! Keep it or change?" }
    else
      match advanceToNextPlayer s.players s.currentPlayerIndex with
      | Option.some nextPlayerIndex =>
        { s2 with turnOwnerIndex := Option.some s.currentPlayerIndex,
                  currentPlayerIndex := nextPlayerIndex,
                  gameState := .AWAITING_KEEP_OR_CHANGE,
                  message := "Incorrect! You decide: keep or change?" }
      | Option.none => s2

/-- `handleKeepCard` (`Game.tsx` lines 408–424).  If a turn owner is
recorded, control reverts to the owner and the transient field clears. -/
def handleKeepCard (s : Session) : Session :=
  match s.turnOwnerIndex with
  | Option.some owner =>
    { s with gameState := .AWAITING_HIGHER_LOWER,
             currentPlayerIndex := owner, turnOwnerIndex := Option.none,
             message := "Your turn. Higher or Lower?" }
  | Option.none =>
    { s with gameState := .AWAITING_HIGHER_LOWER,
             message := "Higher or Lower?" }

/-- `handleChangeCard` (`Game.tsx` lines 426–448).  Draws a replacement
card, then resolves turn ownership exactly as `handleKeepCard`. -/
def handleChangeCard (shuffle : List Card → List Card) (s : Session) : Session :=
  match drawCard shuffle s with
  | (Option.none, s1) => s1
  | (Option.some newCard, s1) =>
    let s2 := smoothCardTransition newCard s1
    match s.turnOwnerIndex with
    | Option.some owner =>
      { s2 with gameState := .AWAITING_HIGHER_LOWER,
                currentPlayerIndex := owner, turnOwnerIndex := Option.none,
                message := "Your turn. Higher or Lower?" }
    | Option.none =>
      { s2 with gameState := .AWAITING_HIGHER_LOWER,
                message := "Higher or Lower?" }

/-- `handleHigherLowerGuess` (`Game.tsx` lines 450–506).  A drawn card of
equal value is always a failure with reason `SAME_VALUE_TIE`; otherwise
the guess succeeds exactly when the strict comparison matches it.
Failures go to `SHOWING_RESULT`, successes to `PLAY_OR_PASS`. -/
def handleHigherLowerGuess (shuffle : List Card → List Card) (guess : HLChoice)
    (s : Session) : Session :=
  match s.currentCard with
  | Option.none => s
  | Option.some previousCard =>
    match drawCard shuffle s with
    | (Option.none, s1) => s1
    | (Option.some newCard, s1) =>
      let s2 := smoothCardTransition newCard s1
      if newCard.value = previousCard.value then
        { s2 with failureReason := Option.some .SAME_VALUE_TIE,
                  gameState := .SHOWING_RESULT,
                  message := "Same card value!" }
      else
        let correct : Bool := match guess with
                       | .Higher => previousCard.value < newCard.value
                       | .Lower => newCard.value < previousCard.value
        if correct then
          { s2 with gameState := .PLAY_OR_PASS,
                    message := "Correct! Play again or Pass?" }
        else
          { s2 with failureReason := Option.some .INCORRECT_GUESS,
                    gameState := .SHOWING_RESULT,
                    message := "Incorrect!" }

/-- `handlePlay` (`Game.tsx` lines 508–516): same player, same baseline
card, back to the higher/lower guess. -/
def handlePlay (s : Session) : Session :=
  { s with gameState := .AWAITING_HIGHER_LOWER,
           message := "Higher or Lower?" }

/-- `handlePass` (`Game.tsx` lines 518–528): the next eligible player
becomes current; the baseline card does not change.  Note: no
`resetPlayCount` call appears here (or anywhere else). -/
def handlePass (s : Session) : Session :=
  match advanceToNextPlayer s.players s.currentPlayerIndex with
  | Option.some nextPlayerIndex =>
    { s with currentPlayerIndex := nextPlayerIndex,
             gameState := .AWAITING_HIGHER_LOWER,
             message := "Your turn. Higher or lower?" }
  | Option.none => s

/-- `processTurnEnd` (`Game.tsx` lines 369–397, latest version), invoked
by the `SHOWING_RESULT` timeout: decrement the failing (current)
player's lives, check for a winner, otherwise return to
`AWAITING_COLOUR_GUESS`, advancing the turn only if the failing player
lost their last life.  Ties and incorrect guesses take the same path. -/
def processTurnEnd (s : Session) : Session :=
  match s.failureReason with
  | Option.none => s
  | Option.some _ =>
    let newPlayers := decLife s.players s.currentPlayerIndex
    match checkForWinner newPlayers with
    | Option.some w =>
      { s with players := newPlayers, winnerName := w.name,
               gameState := .GAME_OVER, message := "Game Over!" }
    | Option.none =>
      let lostLastLife :=
        ((newPlayers[s.currentPlayerIndex]?).map fun p =>
          decide (p.lives ≤ 0)).getD false
      if lostLastLife then
        match advanceToNextPlayer newPlayers s.currentPlayerIndex with
        | Option.some nextPlayerIndex =>
          { s with players := newPlayers,
                   currentPlayerIndex := nextPlayerIndex,
                   gameState := .AWAITING_COLOUR_GUESS,
                   failureReason := Option.none,
                   message := "Out of lives! Next player: Red or Black?" }
        | Option.none =>
          { s with players := newPlayers,
                   gameState := .AWAITING_COLOUR_GUESS,
                   failureReason := Option.none }
      else
        { s with players := newPlayers,
                 gameState := .AWAITING_COLOUR_GUESS,
                 failureReason := Option.none,
                 message := "You lose a life. Red or Black again?" }

/-- `handleGameStart` (`Game.tsx` lines 201–225): fresh shuffled deck, no
current card, one `new AIPlayer("medium")` per computer player, first
human player (or index 0) starts. -/
def handleGameStart (shuffle : List Card → List Card) (ps : List Player)
    (s : Session) : Session :=
  let aiPlayerMap := ps.filterMap fun p =>
    if p.isComputer then Option.some (p.id, AIPlayer.create .medium)
    else Option.none
  let actualStartingIndex :=
    match ps.findIdx? fun p => ¬ p.isComputer with
    | Option.some k => k
    | Option.none => 0
  { s with players := ps, deck := shuffle createDeck,
           currentCard := Option.none, aiPlayers := aiPlayerMap,
           currentPlayerIndex := actualStartingIndex, gameStarted := true,
           gameState := .AWAITING_COLOUR_GUESS,
           message := "Is the first card Red or Black?" }

/-- `handlePlayAgain` (`Game.tsx` lines 780–803): full reset back to
`SETUP`. -/
def handlePlayAgain (s : Session) : Session :=
  { s with gameStarted := false, gameState := .SETUP,
           message := "Welcome to POP! Setup the game to start.",
           players := [], deck := [], discardPile := [],
           currentCard := Option.none, currentPlayerIndex := 0,
           turnOwnerIndex := Option.none, failureReason := Option.none,
           winnerName := "", aiPlayers := [] }

/-- `processAIPlayOrPass` (`Game.tsx` lines 681–703): when the current
player is an AI with a registered `AIPlayer`, query
`makePlayOrPassDecision(currentCard, lives, players.length)` (no
`gameState` argument) and execute `handlePlay` or `handlePass`. -/
def processAIPlayOrPass (rs : PRands) (s : Session) : Session :=
  match s.players[s.currentPlayerIndex]? with
  | Option.none => s
  | Option.some currentPlayer =>
    if ¬ currentPlayer.isComputer then s
    else match s.currentCard with
    | Option.none => s
    | Option.some cardToUse =>
      match lookupAI s.aiPlayers currentPlayer.id with
      | Option.none => s
      | Option.some aiPlayer =>
        let dec := aiPlayer.makePlayOrPassDecision cardToUse
          currentPlayer.lives s.players.length Option.none rs
        let s1 := { s with aiPlayers := setAI s.aiPlayers currentPlayer.id dec.2 }
        if dec.1.choice = "Play" then handlePlay s1 else handlePass s1

/-! ### Input events and dispatch

The presentation layer can deliver an event only when the source renders
(and enables) the corresponding control, or when the corresponding
effect's guard holds:

* colour buttons render only in `AWAITING_COLOUR_GUESS`;
* keep/change buttons render only in `AWAITING_KEEP_OR_CHANGE`;
* higher/lower buttons carry `disabled={gameState !== "AWAITING_HIGHER_LOWER"}`;
* play/pass buttons carry `disabled={gameState !== "PLAY_OR_PASS"}`;
* the turn-end timeout fires only under `gameState === 'SHOWING_RESULT'`;
* `GameSetup` (the only source of `startGame`) renders only in `SETUP`;
* the reset button exists in the in-game settings, `GAME_OVER` and
  `CREDITS` screens, never in `SETUP`;
* the AI play-or-pass effect runs only in `PLAY_OR_PASS`.

An event arriving outside its guard is ignored: no handler runs. -/

inductive Event where
  | startGame (ps : List Player)
  | colourGuess (g : ColourChoice)
  | keepCard
  | changeCard
  | higherLower (g : HLChoice)
  | play
  | pass
  | aiPlayOrPass (rs : PRands)
  | turnEnd
  | playAgain

/-- The state guard under which each event reaches its handler. -/
def eventValid (s : Session) : Event → Bool
  | .startGame _ => s.gameState = .SETUP
  | .colourGuess _ => s.gameState = .AWAITING_COLOUR_GUESS
  | .keepCard => s.gameState = .AWAITING_KEEP_OR_CHANGE
  | .changeCard => s.gameState = .AWAITING_KEEP_OR_CHANGE
  | .higherLower _ => s.gameState = .AWAITING_HIGHER_LOWER
  | .play => s.gameState = .PLAY_OR_PASS
  | .pass => s.gameState = .PLAY_OR_PASS
  | .aiPlayOrPass _ => s.gameState = .PLAY_OR_PASS
  | .turnEnd => s.gameState = .SHOWING_RESULT
  | .playAgain => s.gameState ≠ .SETUP

/-- One step of the session: route the event to its handler when its
guard holds, otherwise leave the session untouched. -/
def step (shuffle : List Card → List Card) (s : Session) : Event → Session
  | .startGame ps =>
    if s.gameState = .SETUP then handleGameStart shuffle ps s else s
  | .colourGuess g =>
    if s.gameState = .AWAITING_COLOUR_GUESS then handleColourGuess shuffle g s
    else s
  | .keepCard =>
    if s.gameState = .AWAITING_KEEP_OR_CHANGE then handleKeepCard s else s
  | .changeCard =>
    if s.gameState = .AWAITING_KEEP_OR_CHANGE then handleChangeCard shuffle s
    else s
  | .higherLower g =>
    if s.gameState = .AWAITING_HIGHER_LOWER then
      handleHigherLowerGuess shuffle g s
    else s
  | .play => if s.gameState = .PLAY_OR_PASS then handlePlay s else s
  | .pass => if s.gameState = .PLAY_OR_PASS then handlePass s else s
  | .aiPlayOrPass rs =>
    if s.gameState = .PLAY_OR_PASS then processAIPlayOrPass rs s else s
  | .turnEnd => if s.gameState = .SHOWING_RESULT then processTurnEnd s else s
  | .playAgain => if s.gameState ≠ .SETUP then handlePlayAgain s else s

/-- Sessions reachable from component mount through any event sequence. -/
inductive Reaches (shuffle : List Card → List Card) : Session → Prop where
  | init : Reaches shuffle initialSession
  | next : ∀ {s : Session} (e : Event), Reaches shuffle s →
      Reaches shuffle (step shuffle s e)

/-! ### Auxiliary predicates and fixtures -/

/-- The arguments of one `makePlayOrPassDecision` call, for iterating the
decision within one uninterrupted turn. -/
structure PlayQuery where
  card : Card
  lives : Int
  total : Nat
  gs : Option AIGameState
  rs : PRands

/-- The sequence of play-or-pass choices an `AIPlayer` emits over a list
of consecutive queries, threading its hidden counter. -/
def runPlayOrPass : AIPlayer → List PlayQuery → List String
  | _, [] => []
  | ai, q :: qs =>
    let d := ai.makePlayOrPassDecision q.card q.lives q.total q.gs q.rs
    d.1.choice :: runPlayOrPass d.2 qs

/-- The card-conservation property of the spec: deck, discard pile and
current card together are exactly the full 52-card set. -/
def cardMultisetOK (s : Session) : Prop :=
  (s.deck ++ s.discardPile ++ s.currentCard.toList).Perm createDeck

/-- The inductive session invariant: before a game starts everything is
empty; during a game the 52 cards are conserved. -/
def Inv (s : Session) : Prop :=
  (s.gameState = .SETUP →
    s.deck = [] ∧ s.discardPile = [] ∧ s.currentCard = Option.none ∧
    s.gameStarted = false) ∧
  (s.gameState ≠ .SETUP → s.gameStarted = true ∧ cardMultisetOK s)

/-- All registered AI players carry the difficulty they were created
with at game start. -/
def aiAllMedium (s : Session) : Prop :=
  ∀ e ∈ s.aiPlayers, e.2.difficulty = .medium ∧
    e.2.personality = mergedPersonality .medium

/- Concrete fixtures used by witnesses and counterexamples. -/

def aceOfSpades : Card := { suit := .Spades, rank := .Ace, value := 14 }

def sevenOfHearts : Card := { suit := .Hearts, rank := .R7, value := 7 }

def sevenOfClubs : Card := { suit := .Clubs, rank := .R7, value := 7 }

def humanOne : Player :=
  { id := "1", name := "Player 1", lives := 4, isComputer := false }

def cpuOne : Player :=
  { id := "1", name := "CPU 1", lives := 4, isComputer := true }

def cpuTwo : Player :=
  { id := "2", name := "CPU 2", lives := 4, isComputer := true }

/-- An `AIPlayer` that has already played twice in its current turn. -/
def aiSpent : AIPlayer :=
  { AIPlayer.create .medium with playCountThisTurn := 2 }

/-- A play-or-pass session with two CPUs where CPU 1 (current) has used
up its two plays; its counter is 2 and an Ace is showing. -/
def sessionSpent : Session :=
  { initialSession with
    players := [cpuOne, cpuTwo],
    gameState := .PLAY_OR_PASS, gameStarted := true,
    currentCard := Option.some aceOfSpades,
    deck := [sevenOfHearts], discardPile := [],
    aiPlayers := [("1", aiSpent), ("2", AIPlayer.create .medium)] }

/-- Random samples whose `rChoice = 0` would always select "Play" when
the hidden guards allow it (the clamped probability is at least 1/10). -/
def rsZero : PRands := { rEasy := 0, rChoice := 0, rDelay := 0 }

/-- Random samples whose `rChoice = 1` always select "Pass" (the clamped
probability is at most 9/10). -/
def rsOne : PRands := { rEasy := 0, rChoice := 1, rDelay := 0 }

/-- A colour-guess session where the top of the deck is the (black)
A♠, so a "Red" guess is incorrect. -/
def sessionColour : Session :=
  { initialSession with
    players := [humanOne, cpuTwo],
    gameState := .AWAITING_COLOUR_GUESS, gameStarted := true,
    currentCard := Option.none,
    deck := [sevenOfHearts, aceOfSpades], discardPile := [] }

/-- A player on their last life. -/
def playerLastLife : Player :=
  { id := "1", name := "P1", lives := 1, isComputer := false }

/-- A `SHOWING_RESULT` session: the current player P1 is on their last
life and has just failed a higher/lower guess against CPU 2. -/
def sessionResult : Session :=
  { initialSession with
    players := [playerLastLife, cpuTwo],
    gameState := .SHOWING_RESULT, gameStarted := true,
    failureReason := Option.some .INCORRECT_GUESS,
    currentCard := Option.some sevenOfHearts,
    deck := [sevenOfClubs, aceOfSpades], discardPile := [] }

/-- A pathological session for the deck-exhaustion analysis: a draw is
required (colour guess awaited) while deck and discard are both empty. -/
def sessionExhausted : Session :=
  { initialSession with
    players := [humanOne, cpuTwo],
    gameState := .AWAITING_COLOUR_GUESS, gameStarted := true,
    currentCard := Option.some aceOfSpades,
    deck := [], discardPile := [] }

/-- A play-or-pass query on an Ace with samples that select "Play"
whenever the hidden guards allow it. -/
def playQ : PlayQuery :=
  { card := aceOfSpades, lives := 4, total := 2, gs := Option.none,
    rs := rsZero }

/-- A higher/lower session whose baseline is the 7♥ and whose deck top
is the 7♣ — the next guess hits a same-value tie. -/
def sessionTie : Session :=
  { initialSession with
    players := [humanOne, cpuTwo],
    gameState := .AWAITING_HIGHER_LOWER, gameStarted := true,
    currentCard := Option.some sevenOfHearts,
    deck := [sevenOfClubs], discardPile := [] }

/-! ## Theorems -/

theorem createDeck_length : createDeck.length = 52 := by decide

theorem createDeck_nodup : createDeck.Nodup := by decide

/-- `drawCard` only touches the deck, the discard pile and the message;
in particular the current card stays on display. -/
theorem drawCard_preserves {shuffle : List Card → List Card} {s : Session}
    {oc : Option Card} {s1 : Session} (h : drawCard shuffle s = (oc, s1)) :
    s1.players = s.players ∧ s1.currentCard = s.currentCard ∧
    s1.currentPlayerIndex = s.currentPlayerIndex ∧
    s1.turnOwnerIndex = s.turnOwnerIndex ∧ s1.gameState = s.gameState ∧
    s1.gameStarted = s.gameStarted ∧ s1.failureReason = s.failureReason ∧
    s1.aiPlayers = s.aiPlayers := by
  rcases hd : s.deck.getLast? with _ | c
  · rcases hs : (shuffle s.discardPile).getLast? with _ | c2 <;>
      · simp only [drawCard, hd, hs, Prod.mk.injEq] at h
        obtain ⟨h1, h2⟩ := h
        subst h2
        simp
  · simp only [drawCard, hd, Prod.mk.injEq] at h
    obtain ⟨h1, h2⟩ := h
    subst h2
    simp

/-- `smoothCardTransition` only touches the discard pile and the current
card. -/
theorem smoothCardTransition_preserves (c : Card) (s : Session) :
    (smoothCardTransition c s).players = s.players ∧
    (smoothCardTransition c s).deck = s.deck ∧
    (smoothCardTransition c s).currentPlayerIndex = s.currentPlayerIndex ∧
    (smoothCardTransition c s).turnOwnerIndex = s.turnOwnerIndex ∧
    (smoothCardTransition c s).gameState = s.gameState ∧
    (smoothCardTransition c s).gameStarted = s.gameStarted ∧
    (smoothCardTransition c s).failureReason = s.failureReason ∧
    (smoothCardTransition c s).aiPlayers = s.aiPlayers ∧
    (smoothCardTransition c s).currentCard = Option.some c := by
  unfold smoothCardTransition
  rcases s.currentCard with _ | cc <;> simp

/-- C3: For every higher/lower guess where the drawn card's value equals
the baseline card's value, the outcome is a failure with reason
`SAME_VALUE_TIE` regardless of the guess, and the session moves to
`SHOWING_RESULT`, never to `PLAY_OR_PASS`; a strictly-higher or
strictly-lower card succeeds exactly when it matches the stated guess. -/
theorem claim_C3 (shuffle : List Card → List Card) (s : Session)
    (g : HLChoice) (prev c : Card) (s1 : Session)
    (hstate : s.gameState = .AWAITING_HIGHER_LOWER)
    (hcur : s.currentCard = Option.some prev)
    (hdraw : drawCard shuffle s = (Option.some c, s1)) :
    (c.value = prev.value →
      (step shuffle s (.higherLower g)).failureReason =
        Option.some FailureReason.SAME_VALUE_TIE ∧
      (step shuffle s (.higherLower g)).gameState = .SHOWING_RESULT ∧
      (step shuffle s (.higherLower g)).gameState ≠ .PLAY_OR_PASS) ∧
    (c.value ≠ prev.value →
      (((step shuffle s (.higherLower g)).gameState = .PLAY_OR_PASS) ↔
        ((g = .Higher ∧ prev.value < c.value) ∨
         (g = .Lower ∧ c.value < prev.value))) ∧
      (¬ ((g = .Higher ∧ prev.value < c.value) ∨
          (g = .Lower ∧ c.value < prev.value)) →
        (step shuffle s (.higherLower g)).gameState = .SHOWING_RESULT ∧
        (step shuffle s (.higherLower g)).failureReason =
          Option.some FailureReason.INCORRECT_GUESS)) := by
  have hstep : step shuffle s (.higherLower g) =
      handleHigherLowerGuess shuffle g s := by
    simp [step, hstate]
  refine ⟨?_, ?_⟩
  · intro hv
    simp [hstep, handleHigherLowerGuess, hcur, hdraw, hv]
  · intro hv
    cases g
    · by_cases hlt : prev.value < c.value <;>
        simp [hstep, handleHigherLowerGuess, hcur, hdraw, hv, hlt]
    · by_cases hlt : c.value < prev.value <;>
        simp [hstep, handleHigherLowerGuess, hcur, hdraw, hv, hlt]

/-- Witness for C3, at the 7♥ baseline / 7♣ draw tie with a "Higher"
guess. -/
theorem claim_C3_witness :
    (step id sessionTie (.higherLower .Higher)).failureReason =
      Option.some FailureReason.SAME_VALUE_TIE ∧
    (step id sessionTie (.higherLower .Higher)).gameState =
      .SHOWING_RESULT ∧
    (step id sessionTie (.higherLower .Higher)).gameState ≠
      .PLAY_OR_PASS :=
  (claim_C3 id sessionTie .Higher sevenOfHearts sevenOfClubs
    { sessionTie with deck := [] } rfl rfl rfl).1 rfl

/-- C9: An input event that is not valid for the current state is
ignored with no mutation of the session: the colour and keep/change
buttons are only rendered in their states, the higher/lower and
play/pass buttons are disabled outside theirs, the result timeout only
fires in `SHOWING_RESULT`, and game setup only exists in `SETUP`, so the
dispatch leaves the session untouched. -/
theorem claim_C9 (shuffle : List Card → List Card) (s : Session)
    (e : Event) (h : eventValid s e = false) : step shuffle s e = s := by
  cases e <;>
    simp only [eventValid, decide_eq_false_iff_not, not_not] at h <;>
    simp [step, h]

/-- Witness for C9: a pass event delivered while a colour guess is
awaited leaves the session unchanged. -/
theorem claim_C9_witness : step id sessionExhausted .pass =
    sessionExhausted :=
  claim_C9 id sessionExhausted .pass (by decide)

/-- One `makePlayOrPassDecision` call increments the hidden counter
exactly when it answers "Play", answers "Play" only while the counter is
below 2, and never changes personality or difficulty. -/
theorem makePlayOrPass_step (ai : AIPlayer) (card : Card) (lives : Int)
    (total : Nat) (gs : Option AIGameState) (rs : PRands) :
    ((ai.makePlayOrPassDecision card lives total gs rs).2).playCountThisTurn =
      ai.playCountThisTurn +
        (if (ai.makePlayOrPassDecision card lives total gs rs).1.choice = "Play"
         then 1 else 0) ∧
    ((ai.makePlayOrPassDecision card lives total gs rs).1.choice = "Play" →
      ai.playCountThisTurn < 2) ∧
    ((ai.makePlayOrPassDecision card lives total gs rs).2).personality =
      ai.personality ∧
    ((ai.makePlayOrPassDecision card lives total gs rs).2).difficulty =
      ai.difficulty := by
  unfold AIPlayer.makePlayOrPassDecision
  by_cases h1 : 2 ≤ ai.playCountThisTurn
  · simp [h1]
  · rw [if_neg h1]
    have h1' : ai.playCountThisTurn < 2 := Nat.lt_of_not_le h1
    by_cases h2 : card.value = 2 ∨ card.value = 3 ∨ card.value = 13 ∨
        card.value = 14
    · simp only [h2, not_true_eq_false, if_false]
      by_cases hc : rs.rChoice < playOrPassProbability ai card lives gs rs.rEasy
      · simp [hc, h1']
      · simp [hc, h1']
    · simp [h2, h1]

/-- Aggregated play count over one uninterrupted turn: an AI whose
counter already reached 2 never plays again, and otherwise the counter
plus all further plays stays within 2. -/
theorem runPlayOrPass_count (qs : List PlayQuery) : ∀ ai : AIPlayer,
    (2 ≤ ai.playCountThisTurn → (runPlayOrPass ai qs).count "Play" = 0) ∧
    (ai.playCountThisTurn < 2 →
      ai.playCountThisTurn + (runPlayOrPass ai qs).count "Play" ≤ 2) := by
  induction qs with
  | nil =>
    intro ai
    have h0 : runPlayOrPass ai [] = [] := rfl
    simp [h0]
    omega
  | cons q qs ih =>
    intro ai
    obtain ⟨hcnt, hlt, -, -⟩ :=
      makePlayOrPass_step ai q.card q.lives q.total q.gs q.rs
    obtain ⟨ih1, ih2⟩ :=
      ih (ai.makePlayOrPassDecision q.card q.lives q.total q.gs q.rs).2
    have hrun : runPlayOrPass ai (q :: qs) =
        (ai.makePlayOrPassDecision q.card q.lives q.total q.gs q.rs).1.choice ::
          runPlayOrPass
            (ai.makePlayOrPassDecision q.card q.lives q.total q.gs q.rs).2 qs :=
      rfl
    rw [hrun]
    by_cases hch :
        (ai.makePlayOrPassDecision q.card q.lives q.total q.gs q.rs).1.choice =
          "Play"
    · have hai : ai.playCountThisTurn < 2 := hlt hch
      rw [if_pos hch] at hcnt
      rw [hch, List.count_cons_self]
      constructor
      · intro h2; omega
      · intro h2
        by_cases h22 : 2 ≤ (ai.makePlayOrPassDecision q.card q.lives q.total
            q.gs q.rs).2.playCountThisTurn
        · have h0 := ih1 h22; omega
        · have h0 := ih2 (Nat.lt_of_not_le h22); omega
    · rw [if_neg hch] at hcnt
      rw [List.count_cons_of_ne (fun h => hch h.symm)]
      constructor
      · intro h2
        exact ih1 (by omega)
      · intro h2
        have h0 := ih2 (by omega)
        omega

/-- C6: Regardless of difficulty, `makePlayOrPassDecision` answers
"Pass" whenever the hidden per-turn play counter is at least 2 or the
card's value is outside {2, 3, 13, 14}; consequently "Play" only ever
appears for those extreme values, and at most twice while the counter is
not reset. -/
theorem claim_C6 :
    (∀ (ai : AIPlayer) (card : Card) (lives : Int) (total : Nat)
       (gs : Option AIGameState) (rs : PRands),
       (2 ≤ ai.playCountThisTurn ∨
         ¬ (card.value = 2 ∨ card.value = 3 ∨ card.value = 13 ∨
            card.value = 14)) →
       (ai.makePlayOrPassDecision card lives total gs rs).1.choice = "Pass") ∧
    (∀ (ai : AIPlayer) (qs : List PlayQuery), ai.playCountThisTurn = 0 →
       (runPlayOrPass ai qs).count "Play" ≤ 2) := by
  constructor
  · intro ai card lives total gs rs h
    rcases h with h | h
    · simp [AIPlayer.makePlayOrPassDecision, h]
    · by_cases h1 : 2 ≤ ai.playCountThisTurn
      · simp [AIPlayer.makePlayOrPassDecision, h1]
      · simp [AIPlayer.makePlayOrPassDecision, h1, h]
  · intro ai qs h0
    have h2 := (runPlayOrPass_count qs ai).2 (by omega)
    omega

/-- Witness for C6: a spent AI answers "Pass" even on an Ace with
samples that would otherwise select "Play", and a fresh AI queried three
times on an Ace plays at most twice. -/
theorem claim_C6_witness :
    (aiSpent.makePlayOrPassDecision aceOfSpades 4 2 Option.none
      rsZero).1.choice = "Pass" ∧
    (runPlayOrPass (AIPlayer.create .medium) [playQ, playQ, playQ]).count
      "Play" ≤ 2 :=
  ⟨claim_C6.1 aiSpent aceOfSpades 4 2 Option.none rsZero
     (Or.inl (by decide)),
   claim_C6.2 (AIPlayer.create .medium) [playQ, playQ, playQ] rfl⟩

/-- C7 (code bug): no turn change resets the hidden play counter —
`AIPlayer.resetPlayCount` exists in the source but is never invoked.
Concretely: CPU 1 has played twice (counter 2); its play-or-pass query
is forced to "Pass" (even though `rChoice = 0` would select "Play"
whenever the guards allow), the turn passes to CPU 2, and CPU 1's stored
counter is still 2 after the ownership change, so when its turn comes
back it is again forced to pass on an Ace. -/
theorem claim_C7 :
    (step id sessionSpent (.aiPlayOrPass rsZero)).currentPlayerIndex = 1 ∧
    (step id sessionSpent (.aiPlayOrPass rsZero)).gameState =
      .AWAITING_HIGHER_LOWER ∧
    lookupAI (step id sessionSpent (.aiPlayOrPass rsZero)).aiPlayers "1" =
      Option.some aiSpent ∧
    aiSpent.playCountThisTurn = 2 ∧
    (aiSpent.makePlayOrPassDecision aceOfSpades 4 2 Option.none
      rsZero).1.choice = "Pass" :=
  ⟨rfl, rfl, rfl, rfl, rfl⟩

/-- `drawCard` leaves the `aiPlayers` map alone. -/
theorem drawCard_aiPlayers {shuffle : List Card → List Card} {s : Session}
    {oc : Option Card} {s1 : Session} (h : drawCard shuffle s = (oc, s1)) :
    s1.aiPlayers = s.aiPlayers :=
  (drawCard_preserves h).2.2.2.2.2.2.2

/-- `smoothCardTransition` leaves the `aiPlayers` map alone. -/
theorem smoothCardTransition_aiPlayers (c : Card) (s : Session) :
    (smoothCardTransition c s).aiPlayers = s.aiPlayers :=
  (smoothCardTransition_preserves c s).2.2.2.2.2.2.2.1

/-- Of all the gameplay handlers only `handleGameStart`, `handlePlayAgain`
and `processAIPlayOrPass` ever write the `aiPlayers` map. -/
theorem handleColourGuess_aiPlayers (shuffle : List Card → List Card)
    (g : ColourChoice) (s : Session) :
    (handleColourGuess shuffle g s).aiPlayers = s.aiPlayers := by
  unfold handleColourGuess
  rcases hdraw : drawCard shuffle s with ⟨oc, s1⟩
  have hp := drawCard_aiPlayers hdraw
  rcases oc with _ | c
  · simpa using hp
  · have hs2 := smoothCardTransition_aiPlayers c s1
    by_cases hcorrect : (g = ColourChoice.Red ∧ c.isRed = true) ∨
        (g = ColourChoice.Black ∧ c.isRed = false)
    · simp [hcorrect, hs2, hp]
    · rcases hadv : advanceToNextPlayer s.players s.currentPlayerIndex
        with _ | n <;> simp [hcorrect, hadv, hs2, hp]

theorem handleKeepCard_aiPlayers (s : Session) :
    (handleKeepCard s).aiPlayers = s.aiPlayers := by
  unfold handleKeepCard
  rcases s.turnOwnerIndex with _ | n <;> simp

theorem handleChangeCard_aiPlayers (shuffle : List Card → List Card)
    (s : Session) :
    (handleChangeCard shuffle s).aiPlayers = s.aiPlayers := by
  unfold handleChangeCard
  rcases hdraw : drawCard shuffle s with ⟨oc, s1⟩
  have hp := drawCard_aiPlayers hdraw
  rcases oc with _ | c
  · simpa using hp
  · have hs2 := smoothCardTransition_aiPlayers c s1
    rcases hown : s.turnOwnerIndex with _ | n <;> simp [hown, hs2, hp]

theorem handleHigherLowerGuess_aiPlayers (shuffle : List Card → List Card)
    (g : HLChoice) (s : Session) :
    (handleHigherLowerGuess shuffle g s).aiPlayers = s.aiPlayers := by
  unfold handleHigherLowerGuess
  rcases hcur : s.currentCard with _ | prev
  · simp
  · rcases hdraw : drawCard shuffle s with ⟨oc, s1⟩
    have hp := drawCard_aiPlayers hdraw
    rcases oc with _ | c
    · simpa using hp
    · have hs2 := smoothCardTransition_aiPlayers c s1
      by_cases hv : c.value = prev.value
      · simp [hv, hs2, hp]
      · rcases g <;> by_cases hlt : prev.value < c.value <;>
          by_cases hgt : c.value < prev.value <;>
          simp [hv, hlt, hgt, hs2, hp]

theorem handlePlay_aiPlayers (s : Session) :
    (handlePlay s).aiPlayers = s.aiPlayers := rfl

theorem handlePass_aiPlayers (s : Session) :
    (handlePass s).aiPlayers = s.aiPlayers := by
  unfold handlePass
  rcases advanceToNextPlayer s.players s.currentPlayerIndex with _ | n <;> simp

theorem processTurnEnd_aiPlayers (s : Session) :
    (processTurnEnd s).aiPlayers = s.aiPlayers := by
  unfold processTurnEnd
  rcases s.failureReason with _ | r
  · simp
  · simp only
    rcases checkForWinner (decLife s.players s.currentPlayerIndex) with _ | w
    · simp only
      split
      · rcases advanceToNextPlayer (decLife s.players s.currentPlayerIndex)
          s.currentPlayerIndex with _ | n <;> simp
      · simp
    · simp

/-- The entries `handleGameStart` puts into the map are exactly the
freshly created medium AIs of the computer players. -/
theorem handleGameStart_aiAllMedium (shuffle : List Card → List Card)
    (ps : List Player) (s : Session) :
    aiAllMedium (handleGameStart shuffle ps s) := by
  intro e he
  unfold handleGameStart at he
  simp only [List.mem_filterMap] at he
  obtain ⟨p, -, hpe⟩ := he
  by_cases hc : p.isComputer
  · simp only [hc, if_true, Option.some.injEq] at hpe
    rw [← hpe]
    exact ⟨rfl, rfl⟩
  · simp [hc] at hpe

/-- `processAIPlayOrPass` rewrites one map entry with the updated state
returned by `makePlayOrPassDecision`, which never changes personality or
difficulty. -/
theorem processAIPlayOrPass_aiAllMedium (rs : PRands) (s : Session)
    (h : aiAllMedium s) : aiAllMedium (processAIPlayOrPass rs s) := by
  unfold processAIPlayOrPass
  rcases hget : s.players[s.currentPlayerIndex]? with _ | cp
  · exact h
  · simp only
    by_cases hcomp : cp.isComputer = true
    · simp only [hcomp, not_true_eq_false, if_false]
      rcases hcur : s.currentCard with _ | card
      · exact h
      · simp only
        rcases hlook : lookupAI s.aiPlayers cp.id with _ | aiPlayer
        · exact h
        · simp only
          have hmem : ∃ e ∈ s.aiPlayers, e.2 = aiPlayer := by
            unfold lookupAI at hlook
            rcases hf : s.aiPlayers.find? fun e => e.1 = cp.id with _ | e0
            · rw [hf] at hlook; simp at hlook
            · rw [hf] at hlook
              simp at hlook
              exact ⟨e0, List.mem_of_find?_eq_some hf, hlook⟩
          obtain ⟨e0, he0, he0v⟩ := hmem
          have hai := h e0 he0
          rw [he0v] at hai
          obtain ⟨-, -, hstep2, hstep3⟩ := makePlayOrPass_step aiPlayer
            card cp.lives s.players.length Option.none rs
          have hnewList : ∀ e ∈ setAI s.aiPlayers cp.id
              (aiPlayer.makePlayOrPassDecision card cp.lives
                s.players.length Option.none rs).2,
              e.2.difficulty = .medium ∧
              e.2.personality = mergedPersonality .medium := by
            intro e he
            simp only [setAI, List.mem_map] at he
            obtain ⟨e1, he1, he1e⟩ := he
            by_cases hk : e1.1 = cp.id
            · simp only [hk, if_true] at he1e
              rw [← he1e]
              exact ⟨hstep3.trans hai.1, hstep2.trans hai.2⟩
            · simp only [hk, if_false] at he1e
              rw [← he1e]
              exact h e1 he1
          split
          · intro e he
            rw [handlePlay_aiPlayers] at he
            exact hnewList e he
          · intro e he
            rw [handlePass_aiPlayers] at he
            exact hnewList e he
    · simp only [hcomp, not_false_eq_true, if_true]
      exact h

/-- Every event preserves "all registered AIs are medium". -/
theorem step_aiAllMedium (shuffle : List Card → List Card) (s : Session)
    (e : Event) (h : aiAllMedium s) : aiAllMedium (step shuffle s e) := by
  cases e with
  | startGame ps =>
    by_cases hg : s.gameState = GameState.SETUP <;> simp only [step, hg]
    · simp only [if_true]
      exact handleGameStart_aiAllMedium shuffle ps s
    · simp only [if_false]
      exact h
  | colourGuess g =>
    by_cases hg : s.gameState = GameState.AWAITING_COLOUR_GUESS <;>
      simp only [step, hg, if_true, if_false]
    · intro e he
      rw [handleColourGuess_aiPlayers] at he
      exact h e he
    · exact h
  | keepCard =>
    by_cases hg : s.gameState = GameState.AWAITING_KEEP_OR_CHANGE <;>
      simp only [step, hg, if_true, if_false]
    · intro e he
      rw [handleKeepCard_aiPlayers] at he
      exact h e he
    · exact h
  | changeCard =>
    by_cases hg : s.gameState = GameState.AWAITING_KEEP_OR_CHANGE <;>
      simp only [step, hg, if_true, if_false]
    · intro e he
      rw [handleChangeCard_aiPlayers] at he
      exact h e he
    · exact h
  | higherLower g =>
    by_cases hg : s.gameState = GameState.AWAITING_HIGHER_LOWER <;>
      simp only [step, hg, if_true, if_false]
    · intro e he
      rw [handleHigherLowerGuess_aiPlayers] at he
      exact h e he
    · exact h
  | play =>
    by_cases hg : s.gameState = GameState.PLAY_OR_PASS <;>
      simp only [step, hg, if_true, if_false]
    · intro e he
      rw [handlePlay_aiPlayers] at he
      exact h e he
    · exact h
  | pass =>
    by_cases hg : s.gameState = GameState.PLAY_OR_PASS <;>
      simp only [step, hg, if_true, if_false]
    · intro e he
      rw [handlePass_aiPlayers] at he
      exact h e he
    · exact h
  | aiPlayOrPass rs =>
    by_cases hg : s.gameState = GameState.PLAY_OR_PASS <;>
      simp only [step, hg, if_true, if_false]
    · exact processAIPlayOrPass_aiAllMedium rs s h
    · exact h
  | turnEnd =>
    by_cases hg : s.gameState = GameState.SHOWING_RESULT <;>
      simp only [step, hg, if_true, if_false]
    · intro e he
      rw [processTurnEnd_aiPlayers] at he
      exact h e he
    · exact h
  | playAgain =>
    by_cases hg : s.gameState = GameState.SETUP <;> simp only [step, hg]
    · simp
      exact h
    · simp [hg, handlePlayAgain]
      intro e he
      simp at he

/-- Every reachable session registers only medium AIs. -/
theorem reaches_aiAllMedium (shuffle : List Card → List Card) (s : Session)
    (hr : Reaches shuffle s) : aiAllMedium s := by
  induction hr with
  | init => intro e he; simp [initialSession] at he
  | next e _ ih => exact step_aiAllMedium _ _ e ih

/-- C10: Every AI opponent is created at game start with the "medium"
tier — `startGame` carries only name/computer-flag data, so no input can
select easy or hard — and hence in every reachable session every
registered AI has the medium personality: riskTolerance 0.5,
keepCardThreshold 0.4, playAgainThreshold 0.6. -/
theorem claim_C10 (shuffle : List Card → List Card) (s : Session)
    (hr : Reaches shuffle s) :
    ∀ e ∈ s.aiPlayers, e.2.difficulty = .medium ∧
      e.2.personality.riskTolerance = 1/2 ∧
      e.2.personality.keepCardThreshold = 2/5 ∧
      e.2.personality.playAgainThreshold = 3/5 := by
  intro e he
  obtain ⟨h1, h2⟩ := reaches_aiAllMedium shuffle s hr e he
  exact ⟨h1, by rw [h2]; exact ⟨rfl, rfl, rfl⟩⟩

/-- Witness for C10: after starting a game with one human and one CPU,
the registered AI for the CPU is the medium one. -/
theorem claim_C10_witness :
    (AIPlayer.create AIDifficulty.medium).difficulty = .medium ∧
    (AIPlayer.create AIDifficulty.medium).personality.riskTolerance = 1/2 ∧
    (AIPlayer.create AIDifficulty.medium).personality.keepCardThreshold = 2/5 ∧
    (AIPlayer.create AIDifficulty.medium).personality.playAgainThreshold =
      3/5 :=
  claim_C10 id (step id initialSession (.startGame [humanOne, cpuTwo]))
    (Reaches.next _ Reaches.init) ("2", AIPlayer.create AIDifficulty.medium)
    (List.Mem.head _)

/-- `decLife` decrements exactly the life of the player at the given
index and leaves every other entry untouched. -/
theorem decLife_getElem? (players : List Player) (i j : Nat) :
    (decLife players i)[j]? = (players[j]?).map fun p =>
      if j = i then { p with lives := p.lives - 1 } else p := by
  unfold decLife
  rcases hp : players[i]? with _ | p0
  · by_cases hj : j = i
    · subst hj
      simp [hp]
    · rcases hq : players[j]? with _ | q <;> simp [hj, hq]
  · have hi : i < players.length := by
      by_contra hge
      rw [List.getElem?_eq_none (Nat.le_of_not_lt hge)] at hp
      exact Option.noConfusion hp
    by_cases hj : j = i
    · subst hj
      rw [List.getElem?_set_self hi, hp]
      simp
    · rw [List.getElem?_set_ne (fun h => hj h.symm)]
      rcases hq : players[j]? with _ | q <;> simp [hj, hq]

theorem decLife_length (players : List Player) (i : Nat) :
    (decLife players i).length = players.length := by
  unfold decLife
  rcases players[i]? with _ | p0 <;> simp

/-- `checkForWinner` answers exactly when one live player remains. -/
theorem checkForWinner_some {players : List Player} {w : Player}
    (h : checkForWinner players = Option.some w) :
    (players.filter fun p => p.lives > 0).length = 1 := by
  unfold checkForWinner at h
  by_cases h1 : (players.filter fun p => p.lives > 0).length = 1
  · exact h1
  · rw [if_neg h1] at h
    exact Option.noConfusion h

theorem checkForWinner_none {players : List Player}
    (h : checkForWinner players = Option.none) :
    (players.filter fun p => p.lives > 0).length ≠ 1 := by
  unfold checkForWinner at h
  intro h1
  rw [if_pos h1] at h
  have h2 : players.filter (fun p => p.lives > 0) ≠ [] := by
    intro h0
    rw [h0] at h1
    simp at h1
  rw [List.head?_eq_none_iff] at h
  exact h2 h

/-- C1: The turn-end resolution entered from `SHOWING_RESULT` decrements
exactly the failing (current) player's lives by 1; if exactly one player
then has lives > 0 the session enters `GAME_OVER`; otherwise it returns
to `AWAITING_COLOUR_GUESS` and the current player advances to the next
eligible player if and only if the failing player reached 0 lives; ties
resolve identically to plain incorrect guesses. -/
theorem claim_C1 (shuffle : List Card → List Card) (s : Session)
    (r : FailureReason) (hstate : s.gameState = .SHOWING_RESULT)
    (hfr : s.failureReason = Option.some r)
    (hidx : s.currentPlayerIndex < s.players.length) :
    (step shuffle s .turnEnd).players =
      decLife s.players s.currentPlayerIndex ∧
    (∀ j, (decLife s.players s.currentPlayerIndex)[j]? =
       (s.players[j]?).map fun p =>
         if j = s.currentPlayerIndex then { p with lives := p.lives - 1 }
         else p) ∧
    ((((decLife s.players s.currentPlayerIndex).filter
        fun p => p.lives > 0).length = 1) ↔
      (step shuffle s .turnEnd).gameState = .GAME_OVER) ∧
    ((((decLife s.players s.currentPlayerIndex).filter
        fun p => p.lives > 0).length ≠ 1) →
      (step shuffle s .turnEnd).gameState = .AWAITING_COLOUR_GUESS ∧
      (step shuffle s .turnEnd).failureReason = Option.none ∧
      (∀ p, (decLife s.players s.currentPlayerIndex)[s.currentPlayerIndex]? =
          Option.some p →
        (0 < p.lives →
          (step shuffle s .turnEnd).currentPlayerIndex =
            s.currentPlayerIndex) ∧
        (p.lives ≤ 0 → ∀ nxt,
          advanceToNextPlayer (decLife s.players s.currentPlayerIndex)
              s.currentPlayerIndex = Option.some nxt →
          (step shuffle s .turnEnd).currentPlayerIndex = nxt))) ∧
    ((processTurnEnd { s with failureReason := Option.some .SAME_VALUE_TIE
        }).players =
      (processTurnEnd { s with failureReason := Option.some .INCORRECT_GUESS
        }).players ∧
     (processTurnEnd { s with failureReason := Option.some .SAME_VALUE_TIE
        }).gameState =
      (processTurnEnd { s with failureReason := Option.some .INCORRECT_GUESS
        }).gameState ∧
     (processTurnEnd { s with failureReason := Option.some .SAME_VALUE_TIE
        }).currentPlayerIndex =
      (processTurnEnd { s with failureReason := Option.some .INCORRECT_GUESS
        }).currentPlayerIndex)
    := by
  have htie :
      (processTurnEnd { s with failureReason := Option.some .SAME_VALUE_TIE
        }).players =
      (processTurnEnd { s with failureReason := Option.some .INCORRECT_GUESS
        }).players ∧
      (processTurnEnd { s with failureReason := Option.some .SAME_VALUE_TIE
        }).gameState =
      (processTurnEnd { s with failureReason := Option.some .INCORRECT_GUESS
        }).gameState ∧
      (processTurnEnd { s with failureReason := Option.some .SAME_VALUE_TIE
        }).currentPlayerIndex =
      (processTurnEnd { s with failureReason := Option.some .INCORRECT_GUESS
        }).currentPlayerIndex := by
    unfold processTurnEnd
    simp only
    rcases checkForWinner (decLife s.players s.currentPlayerIndex)
      with _ | w2 <;> simp
  have hstep : step shuffle s .turnEnd = processTurnEnd s := by
    simp [step, hstate]
  refine ⟨?_, fun j => decLife_getElem? _ _ j, ?_, ?_, htie⟩
  · rw [hstep]
    unfold processTurnEnd
    rw [hfr]
    simp only
    rcases checkForWinner (decLife s.players s.currentPlayerIndex) with _ | w
    · simp only
      split
      · rcases advanceToNextPlayer (decLife s.players s.currentPlayerIndex)
          s.currentPlayerIndex with _ | n <;> rfl
      · rfl
    · rfl
  · rw [hstep]
    unfold processTurnEnd
    rw [hfr]
    simp only
    rcases hw : checkForWinner (decLife s.players s.currentPlayerIndex)
      with _ | w
    · have hlen := checkForWinner_none hw
      simp only
      constructor
      · intro h
        exact absurd h hlen
      · intro h
        exfalso
        split at h
        · rcases hadv : advanceToNextPlayer
              (decLife s.players s.currentPlayerIndex) s.currentPlayerIndex
            with _ | nxt <;> rw [hadv] at h <;> simp at h
        · simp at h
    · exact ⟨fun _ => rfl, fun _ => checkForWinner_some hw⟩
  · intro hne
    rw [hstep]
    unfold processTurnEnd
    rw [hfr]
    simp only
    rcases hw : checkForWinner (decLife s.players s.currentPlayerIndex)
      with _ | w
    · rcases hp :
          (decLife s.players s.currentPlayerIndex)[s.currentPlayerIndex]?
        with _ | p
      · exfalso
        rw [List.getElem?_eq_none_iff, decLife_length] at hp
        omega
      · by_cases hlast : p.lives ≤ 0
        · have hb := decide_eq_true hlast
          simp only [hp, Option.map_some', Option.getD_some, hb, if_true]
          rcases hadv : advanceToNextPlayer
              (decLife s.players s.currentPlayerIndex) s.currentPlayerIndex
            with _ | nxt
          · refine ⟨rfl, rfl, fun q hq => ?_⟩
            obtain rfl : p = q := by injection hq
            exact ⟨fun hpos => absurd hlast (by omega),
              fun _ nxt2 h2 => Option.noConfusion h2⟩
          · refine ⟨rfl, rfl, fun q hq => ?_⟩
            obtain rfl : p = q := by injection hq
            exact ⟨fun hpos => absurd hlast (by omega),
              fun _ nxt2 h2 => Option.some.inj h2⟩
        · have hb : decide (p.lives ≤ 0) = false := decide_eq_false hlast
          simp only [hp, Option.map_some', Option.getD_some, hb, if_false]
          refine ⟨rfl, rfl, fun q hq => ?_⟩
          obtain rfl : p = q := by injection hq
          exact ⟨fun _ => rfl, fun hle => absurd hle hlast⟩
    · exact absurd (checkForWinner_some hw) hne

/-- Witness for C1: P1 on their last life fails a guess against CPU 2;
the resolution eliminates P1, leaves exactly one live player, and the
session enters `GAME_OVER`. -/
theorem claim_C1_witness :
    (step id sessionResult .turnEnd).gameState = .GAME_OVER :=
  (claim_C1 id sessionResult .INCORRECT_GUESS rfl rfl
    (by decide)).2.2.1.mp (by decide)

/-- A higher/lower guess never moves the current-player index. -/
theorem handleHigherLowerGuess_currentPlayerIndex
    (shuffle : List Card → List Card) (g : HLChoice) (s : Session) :
    (handleHigherLowerGuess shuffle g s).currentPlayerIndex =
      s.currentPlayerIndex := by
  unfold handleHigherLowerGuess
  rcases hcur : s.currentCard with _ | prev
  · simp
  · rcases hdraw : drawCard shuffle s with ⟨oc, s1⟩
    have hp := (drawCard_preserves hdraw).2.2.1
    rcases oc with _ | c
    · simpa using hp
    · have hs2 := (smoothCardTransition_preserves c s1).2.2.1
      by_cases hv : c.value = prev.value
      · simp [hv, hs2, hp]
      · rcases g <;> by_cases hlt : prev.value < c.value <;>
          by_cases hgt : c.value < prev.value <;>
          simp [hv, hlt, hgt, hs2, hp]

/-- Guard discharge for the higher/lower event. -/
theorem step_higherLower_eq (shuffle : List Card → List Card) (g2 : HLChoice)
    (u : Session) (hu : u.gameState = .AWAITING_HIGHER_LOWER) :
    step shuffle u (.higherLower g2) = handleHigherLowerGuess shuffle g2 u := by
  simp [step, hu]

/-- The turn-end decrement always lands on the current player. -/
theorem turnEnd_players_decLife (shuffle : List Card → List Card)
    (t : Session) (fr : FailureReason)
    (hts : t.gameState = .SHOWING_RESULT)
    (htf : t.failureReason = Option.some fr) :
    (step shuffle t .turnEnd).players = decLife t.players t.currentPlayerIndex
    := by
  have hstep : step shuffle t .turnEnd = processTurnEnd t := by
    simp [step, hts]
  rw [hstep]
  unfold processTurnEnd
  rw [htf]
  simp only
  rcases checkForWinner (decLife t.players t.currentPlayerIndex) with _ | w
  · simp only
    split
    · rcases advanceToNextPlayer (decLife t.players t.currentPlayerIndex)
        t.currentPlayerIndex with _ | n <;> rfl
    · rfl
  · rfl

/-- C2: An incorrect colour guess changes no lives; the guesser becomes
the transient turn owner while the next eligible player takes over for
keep/change; resolving keep (or change) restores the owner as current
player and clears the transient field, so the subsequent higher/lower
guess — and any life loss from it — belongs to the original guesser. -/
theorem claim_C2 (shuffle : List Card → List Card) (s : Session)
    (g : ColourChoice) (c : Card) (s1 : Session) (nxt : Nat)
    (hstate : s.gameState = .AWAITING_COLOUR_GUESS)
    (hown : s.turnOwnerIndex = Option.none)
    (hdraw : drawCard shuffle s = (Option.some c, s1))
    (hwrong : ¬ ((g = ColourChoice.Red ∧ c.isRed = true) ∨
                 (g = ColourChoice.Black ∧ ¬ c.isRed = true)))
    (hadv : advanceToNextPlayer s.players s.currentPlayerIndex =
        Option.some nxt) :
    (step shuffle s (.colourGuess g)).players = s.players ∧
    (step shuffle s (.colourGuess g)).turnOwnerIndex =
      Option.some s.currentPlayerIndex ∧
    (step shuffle s (.colourGuess g)).currentPlayerIndex = nxt ∧
    (step shuffle s (.colourGuess g)).gameState =
      .AWAITING_KEEP_OR_CHANGE ∧
    ((step shuffle (step shuffle s (.colourGuess g))
        .keepCard).currentPlayerIndex = s.currentPlayerIndex ∧
     (step shuffle (step shuffle s (.colourGuess g))
        .keepCard).turnOwnerIndex = Option.none ∧
     (step shuffle (step shuffle s (.colourGuess g)) .keepCard).players =
       s.players ∧
     (step shuffle (step shuffle s (.colourGuess g)) .keepCard).gameState =
       .AWAITING_HIGHER_LOWER) ∧
    (∀ c2 s2, drawCard shuffle (step shuffle s (.colourGuess g)) =
        (Option.some c2, s2) →
      (step shuffle (step shuffle s (.colourGuess g))
         .changeCard).currentPlayerIndex = s.currentPlayerIndex ∧
      (step shuffle (step shuffle s (.colourGuess g))
         .changeCard).turnOwnerIndex = Option.none ∧
      (step shuffle (step shuffle s (.colourGuess g)) .changeCard).players =
        s.players ∧
      (step shuffle (step shuffle s (.colourGuess g)) .changeCard).gameState =
        .AWAITING_HIGHER_LOWER) ∧
    (∀ g2, (step shuffle (step shuffle (step shuffle s (.colourGuess g))
        .keepCard) (.higherLower g2)).currentPlayerIndex =
      s.currentPlayerIndex) ∧
    (∀ t : Session, t.gameState = .SHOWING_RESULT →
      ∀ fr, t.failureReason = Option.some fr →
        (step shuffle t .turnEnd).players =
          decLife t.players t.currentPlayerIndex) := by
  have hColour : step shuffle s (.colourGuess g) =
      handleColourGuess shuffle g s := by
    simp [step, hstate]
  have hchar : handleColourGuess shuffle g s =
      { smoothCardTransition c s1 with
          turnOwnerIndex := Option.some s.currentPlayerIndex,
          currentPlayerIndex := nxt,
          gameState := .AWAITING_KEEP_OR_CHANGE,
          message := "Incorrect! You decide: keep or change?" } := by
    unfold handleColourGuess
    simp only [hdraw]
    rw [if_neg hwrong]
    simp only [hadv]
  have hplayersA : (handleColourGuess shuffle g s).players = s.players := by
    rw [hchar]
    show (smoothCardTransition c s1).players = s.players
    rw [(smoothCardTransition_preserves c s1).1, (drawCard_preserves hdraw).1]
  have hkeep : step shuffle (step shuffle s (.colourGuess g)) .keepCard =
      { smoothCardTransition c s1 with
          turnOwnerIndex := Option.none,
          currentPlayerIndex := s.currentPlayerIndex,
          gameState := .AWAITING_HIGHER_LOWER,
          message := "Your turn. Higher or Lower?" } := by
    rw [hColour, hchar]
    simp [step, handleKeepCard]
  refine ⟨by rw [hColour]; exact hplayersA,
    by rw [hColour, hchar],
    by rw [hColour, hchar],
    by rw [hColour, hchar],
    ⟨by rw [hkeep], by rw [hkeep],
     by rw [hkeep]
        show (smoothCardTransition c s1).players = s.players
        rw [(smoothCardTransition_preserves c s1).1,
          (drawCard_preserves hdraw).1],
     by rw [hkeep]⟩,
    ?_, ?_, ?_⟩
  · intro c2 s2 hdraw2
    have hchange : step shuffle (step shuffle s (.colourGuess g)) .changeCard =
        { smoothCardTransition c2 s2 with
            turnOwnerIndex := Option.none,
            currentPlayerIndex := s.currentPlayerIndex,
            gameState := .AWAITING_HIGHER_LOWER,
            message := "Your turn. Higher or Lower?" } := by
      conv_lhs => rw [hColour, hchar]
      rw [hColour, hchar] at hdraw2
      simp [step, handleChangeCard, hdraw2]
    refine ⟨by rw [hchange], by rw [hchange], ?_, by rw [hchange]⟩
    rw [hchange]
    show (smoothCardTransition c2 s2).players = s.players
    rw [(smoothCardTransition_preserves c2 s2).1,
      (drawCard_preserves hdraw2).1, hColour, hplayersA]
  · intro g2
    have hg : (step shuffle (step shuffle s (.colourGuess g))
        .keepCard).gameState = .AWAITING_HIGHER_LOWER := by rw [hkeep]
    have hstepHL := step_higherLower_eq shuffle g2 _ hg
    rw [hstepHL, handleHigherLowerGuess_currentPlayerIndex, hkeep]
  · intro t hts fr htf
    exact turnEnd_players_decLife shuffle t fr hts htf

/-- Witness for C2: P1 guesses "Red", the A♠ comes up (incorrect), CPU 2
decides keep, and control returns to P1 with the transient owner field
cleared and no lives changed. -/
theorem claim_C2_witness :
    (step id sessionColour (.colourGuess .Red)).turnOwnerIndex =
      Option.some 0 ∧
    (step id sessionColour (.colourGuess .Red)).currentPlayerIndex = 1 ∧
    (step id (step id sessionColour (.colourGuess .Red))
       .keepCard).currentPlayerIndex = 0 ∧
    (step id (step id sessionColour (.colourGuess .Red))
       .keepCard).turnOwnerIndex = Option.none ∧
    (step id (step id sessionColour (.colourGuess .Red)) .keepCard).players =
      sessionColour.players :=
  have h := claim_C2 id sessionColour .Red aceOfSpades
    { sessionColour with deck := [sevenOfHearts] } 1 rfl rfl rfl (by decide)
    rfl
  ⟨h.2.1, h.2.2.1, h.2.2.2.2.1.1, h.2.2.2.2.1.2.1, h.2.2.2.2.1.2.2.1⟩

/-- Moving the last element of the first block to the back of the whole
list is a permutation. -/
theorem perm_rotate {α : Type} (xs ys : List α) (a : α) :
    (xs ++ ys ++ [a]).Perm ((xs ++ [a]) ++ ys) := by
  rw [List.append_assoc, List.append_assoc]
  exact List.Perm.append_left xs List.perm_append_comm

/-- A successful draw followed by the card transition conserves the card
multiset. -/
theorem draw_smooth_ok {shuffle : List Card → List Card}
    (hperm : ∀ l : List Card, (shuffle l).Perm l) {s : Session} {c : Card}
    {s1 : Session} (hok : cardMultisetOK s)
    (hdraw : drawCard shuffle s = (Option.some c, s1)) :
    cardMultisetOK (smoothCardTransition c s1) := by
  unfold cardMultisetOK at hok
  unfold drawCard at hdraw
  rcases hd : s.deck.getLast? with _ | c0
  · simp only [hd] at hdraw
    have hdeck : s.deck = [] := List.getLast?_eq_none_iff.mp hd
    rcases hs : (shuffle s.discardPile).getLast? with _ | c1
    · simp only [hs] at hdraw
      exact absurd hdraw (by simp)
    · simp only [hs, Prod.mk.injEq, Option.some.injEq] at hdraw
      obtain ⟨rfl, h2⟩ := hdraw
      subst h2
      rw [hdeck] at hok
      have hsd : (shuffle s.discardPile).dropLast ++ [c1] =
          shuffle s.discardPile :=
        List.dropLast_append_getLast? c1 hs
      unfold smoothCardTransition
      rcases hcur : s.currentCard with _ | cc
      · show ((shuffle s.discardPile).dropLast ++ [] ++ [c1]).Perm createDeck
        rw [hcur] at hok
        rw [List.append_nil, hsd]
        exact (hperm _).trans (by simpa using hok)
      · show ((shuffle s.discardPile).dropLast ++ ([] ++ [cc]) ++ [c1]).Perm
          createDeck
        rw [hcur] at hok
        refine (perm_rotate _ _ _).trans ?_
        rw [hsd]
        refine (List.Perm.append_right _ (hperm _)).trans ?_
        simpa using hok
  · simp only [hd, Prod.mk.injEq, Option.some.injEq] at hdraw
    obtain ⟨rfl, h2⟩ := hdraw
    subst h2
    have hsd : s.deck.dropLast ++ [c0] = s.deck :=
      List.dropLast_append_getLast? c0 hd
    unfold smoothCardTransition
    rcases hcur : s.currentCard with _ | cc
    · show (s.deck.dropLast ++ s.discardPile ++ [c0]).Perm createDeck
      rw [hcur] at hok
      refine (perm_rotate _ _ _).trans ?_
      rw [hsd]
      simpa using hok
    · show (s.deck.dropLast ++ (s.discardPile ++ [cc]) ++ [c0]).Perm createDeck
      rw [hcur] at hok
      refine (perm_rotate _ _ _).trans ?_
      rw [hsd, ← List.append_assoc]
      simpa using hok

/-- A failed draw (deck and discard both empty) still conserves the
multiset: the deck becomes the shuffled discard pile and the discard
pile is cleared. -/
theorem drawCard_none_ok {shuffle : List Card → List Card}
    (hperm : ∀ l : List Card, (shuffle l).Perm l) {s s1 : Session}
    (hok : cardMultisetOK s)
    (hdraw : drawCard shuffle s = (Option.none, s1)) : cardMultisetOK s1 := by
  unfold cardMultisetOK at hok
  unfold drawCard at hdraw
  rcases hd : s.deck.getLast? with _ | c0
  · simp only [hd] at hdraw
    have hdeck : s.deck = [] := List.getLast?_eq_none_iff.mp hd
    rcases hs : (shuffle s.discardPile).getLast? with _ | c1
    · simp only [hs, Prod.mk.injEq, true_and] at hdraw
      subst hdraw
      show (shuffle s.discardPile ++ [] ++ s.currentCard.toList).Perm createDeck
      rw [hdeck] at hok
      rw [List.append_nil]
      exact (List.Perm.append_right _ (hperm _)).trans (by simpa using hok)
    · simp only [hs] at hdraw
      exact absurd hdraw (by simp)
  · simp only [hd] at hdraw
    exact absurd hdraw (by simp)

/-- Invariant data carried through `handleColourGuess`: the started flag
and the card multiset are preserved, and the state stays or moves to
keep-or-change. -/
theorem handleColourGuess_inv {shuffle : List Card → List Card}
    (hperm : ∀ l : List Card, (shuffle l).Perm l) (g : ColourChoice)
    (s : Session) (hok : cardMultisetOK s) :
    (handleColourGuess shuffle g s).gameStarted = s.gameStarted ∧
    cardMultisetOK (handleColourGuess shuffle g s) ∧
    ((handleColourGuess shuffle g s).gameState = s.gameState ∨
     (handleColourGuess shuffle g s).gameState = .AWAITING_KEEP_OR_CHANGE) := by
  rcases hdraw : drawCard shuffle s with ⟨oc, s1⟩
  obtain ⟨hpl, hcc, hcpi, htoi, hgs, hgst, hfr, hai⟩ := drawCard_preserves hdraw
  rcases oc with _ | c
  · have hchar : handleColourGuess shuffle g s = s1 := by
      unfold handleColourGuess
      simp only [hdraw]
    rw [hchar]
    exact ⟨hgst, drawCard_none_ok hperm hok hdraw, Or.inl hgs⟩
  · have hsm := draw_smooth_ok hperm hok hdraw
    obtain ⟨hp1, hd1, hi1, ht1, hg1, hs1, hf1, ha1, hc1⟩ :=
      smoothCardTransition_preserves c s1
    by_cases hcorrect : (g = ColourChoice.Red ∧ c.isRed = true) ∨
        (g = ColourChoice.Black ∧ ¬ c.isRed = true)
    · have hchar : handleColourGuess shuffle g s =
          { smoothCardTransition c s1 with
              gameState := .AWAITING_KEEP_OR_CHANGE,
              message := "Correct! Keep it or change?" } := by
        unfold handleColourGuess
        simp only [hdraw]
        rw [if_pos hcorrect]
      rw [hchar]
      exact ⟨hs1.trans hgst, hsm, Or.inr rfl⟩
    · rcases hadv : advanceToNextPlayer s.players s.currentPlayerIndex
        with _ | n
      · have hchar : handleColourGuess shuffle g s =
            smoothCardTransition c s1 := by
          unfold handleColourGuess
          simp only [hdraw]
          rw [if_neg hcorrect]
          simp only [hadv]
        rw [hchar]
        exact ⟨hs1.trans hgst, hsm, Or.inl (hg1.trans hgs)⟩
      · have hchar : handleColourGuess shuffle g s =
            { smoothCardTransition c s1 with
                turnOwnerIndex := Option.some s.currentPlayerIndex,
                currentPlayerIndex := n,
                gameState := .AWAITING_KEEP_OR_CHANGE,
                message := "Incorrect! You decide: keep or change?" } := by
          unfold handleColourGuess
          simp only [hdraw]
          rw [if_neg hcorrect]
          simp only [hadv]
        rw [hchar]
        exact ⟨hs1.trans hgst, hsm, Or.inr rfl⟩

theorem handleKeepCard_inv (s : Session) (hok : cardMultisetOK s) :
    (handleKeepCard s).gameStarted = s.gameStarted ∧
    cardMultisetOK (handleKeepCard s) ∧
    (handleKeepCard s).gameState = .AWAITING_HIGHER_LOWER := by
  unfold handleKeepCard
  rcases hown : s.turnOwnerIndex with _ | n <;> exact ⟨rfl, hok, rfl⟩

theorem handleChangeCard_inv {shuffle : List Card → List Card}
    (hperm : ∀ l : List Card, (shuffle l).Perm l) (s : Session)
    (hok : cardMultisetOK s) :
    (handleChangeCard shuffle s).gameStarted = s.gameStarted ∧
    cardMultisetOK (handleChangeCard shuffle s) ∧
    ((handleChangeCard shuffle s).gameState = s.gameState ∨
     (handleChangeCard shuffle s).gameState = .AWAITING_HIGHER_LOWER) := by
  rcases hdraw : drawCard shuffle s with ⟨oc, s1⟩
  obtain ⟨hpl, hcc, hcpi, htoi, hgs, hgst, hfr, hai⟩ := drawCard_preserves hdraw
  rcases oc with _ | c
  · have hchar : handleChangeCard shuffle s = s1 := by
      unfold handleChangeCard
      simp only [hdraw]
    rw [hchar]
    exact ⟨hgst, drawCard_none_ok hperm hok hdraw, Or.inl hgs⟩
  · have hsm := draw_smooth_ok hperm hok hdraw
    obtain ⟨hp1, hd1, hi1, ht1, hg1, hs1, hf1, ha1, hc1⟩ :=
      smoothCardTransition_preserves c s1
    rcases hown : s.turnOwnerIndex with _ | n
    · have hchar : handleChangeCard shuffle s =
          { smoothCardTransition c s1 with
              gameState := .AWAITING_HIGHER_LOWER,
              message := "Higher or Lower?" } := by
        unfold handleChangeCard
        simp only [hdraw, hown]
      rw [hchar]
      exact ⟨hs1.trans hgst, hsm, Or.inr rfl⟩
    · have hchar : handleChangeCard shuffle s =
          { smoothCardTransition c s1 with
              gameState := .AWAITING_HIGHER_LOWER,
              currentPlayerIndex := n, turnOwnerIndex := Option.none,
              message := "Your turn. Higher or Lower?" } := by
        unfold handleChangeCard
        simp only [hdraw, hown]
      rw [hchar]
      exact ⟨hs1.trans hgst, hsm, Or.inr rfl⟩

theorem handleHigherLowerGuess_inv {shuffle : List Card → List Card}
    (hperm : ∀ l : List Card, (shuffle l).Perm l) (g : HLChoice) (s : Session)
    (hok : cardMultisetOK s) :
    (handleHigherLowerGuess shuffle g s).gameStarted = s.gameStarted ∧
    cardMultisetOK (handleHigherLowerGuess shuffle g s) ∧
    ((handleHigherLowerGuess shuffle g s).gameState = s.gameState ∨
     (handleHigherLowerGuess shuffle g s).gameState = .SHOWING_RESULT ∨
     (handleHigherLowerGuess shuffle g s).gameState = .PLAY_OR_PASS) := by
  rcases hcur : s.currentCard with _ | prev
  · have hchar : handleHigherLowerGuess shuffle g s = s := by
      unfold handleHigherLowerGuess
      simp only [hcur]
    rw [hchar]
    exact ⟨rfl, hok, Or.inl rfl⟩
  · rcases hdraw : drawCard shuffle s with ⟨oc, s1⟩
    obtain ⟨hpl, hcc, hcpi, htoi, hgs, hgst, hfr, hai⟩ :=
      drawCard_preserves hdraw
    rcases oc with _ | c
    · have hchar : handleHigherLowerGuess shuffle g s = s1 := by
        unfold handleHigherLowerGuess
        simp only [hcur, hdraw]
      rw [hchar]
      exact ⟨hgst, drawCard_none_ok hperm hok hdraw, Or.inl hgs⟩
    · have hsm := draw_smooth_ok hperm hok hdraw
      obtain ⟨hp1, hd1, hi1, ht1, hg1, hs1, hf1, ha1, hc1⟩ :=
        smoothCardTransition_preserves c s1
      by_cases hv : c.value = prev.value
      · have hchar : handleHigherLowerGuess shuffle g s =
            { smoothCardTransition c s1 with
                failureReason := Option.some .SAME_VALUE_TIE,
                gameState := .SHOWING_RESULT,
                message := "Same card value!" } := by
          unfold handleHigherLowerGuess
          simp only [hcur, hdraw]
          rw [if_pos hv]
        rw [hchar]
        exact ⟨hs1.trans hgst, hsm, Or.inr (Or.inl rfl)⟩
      · by_cases hcor : (match g with
            | HLChoice.Higher => decide (prev.value < c.value)
            | HLChoice.Lower => decide (c.value < prev.value)) = true
        · have hchar : handleHigherLowerGuess shuffle g s =
              { smoothCardTransition c s1 with
                  gameState := .PLAY_OR_PASS,
                  message := "Correct! Play again or Pass?" } := by
            unfold handleHigherLowerGuess
            simp only [hcur, hdraw]
            rw [if_neg hv, if_pos hcor]
          rw [hchar]
          exact ⟨hs1.trans hgst, hsm, Or.inr (Or.inr rfl)⟩
        · have hchar : handleHigherLowerGuess shuffle g s =
              { smoothCardTransition c s1 with
                  failureReason := Option.some .INCORRECT_GUESS,
                  gameState := .SHOWING_RESULT,
                  message := "Incorrect!" } := by
            unfold handleHigherLowerGuess
            simp only [hcur, hdraw]
            rw [if_neg hv, if_neg hcor]
          rw [hchar]
          exact ⟨hs1.trans hgst, hsm, Or.inr (Or.inl rfl)⟩

theorem handlePlay_inv (s : Session) (hok : cardMultisetOK s) :
    (handlePlay s).gameStarted = s.gameStarted ∧
    cardMultisetOK (handlePlay s) ∧
    (handlePlay s).gameState = .AWAITING_HIGHER_LOWER :=
  ⟨rfl, hok, rfl⟩

theorem handlePass_inv (s : Session) (hok : cardMultisetOK s) :
    (handlePass s).gameStarted = s.gameStarted ∧
    cardMultisetOK (handlePass s) ∧
    ((handlePass s).gameState = s.gameState ∨
     (handlePass s).gameState = .AWAITING_HIGHER_LOWER) := by
  unfold handlePass
  rcases hadv : advanceToNextPlayer s.players s.currentPlayerIndex with _ | n
  · exact ⟨rfl, hok, Or.inl rfl⟩
  · exact ⟨rfl, hok, Or.inr rfl⟩

theorem processTurnEnd_inv (s : Session) (hok : cardMultisetOK s) :
    (processTurnEnd s).gameStarted = s.gameStarted ∧
    cardMultisetOK (processTurnEnd s) ∧
    ((processTurnEnd s).gameState = s.gameState ∨
     (processTurnEnd s).gameState = .GAME_OVER ∨
     (processTurnEnd s).gameState = .AWAITING_COLOUR_GUESS) := by
  unfold processTurnEnd
  rcases hfr : s.failureReason with _ | r
  · exact ⟨rfl, hok, Or.inl rfl⟩
  · simp only
    rcases hw : checkForWinner (decLife s.players s.currentPlayerIndex)
      with _ | w
    · simp only
      split
      · rcases hadv : advanceToNextPlayer (decLife s.players
          s.currentPlayerIndex) s.currentPlayerIndex with _ | n
        · exact ⟨rfl, hok, Or.inr (Or.inr rfl)⟩
        · exact ⟨rfl, hok, Or.inr (Or.inr rfl)⟩
      · exact ⟨rfl, hok, Or.inr (Or.inr rfl)⟩
    · exact ⟨rfl, hok, Or.inr (Or.inl rfl)⟩

theorem processAIPlayOrPass_inv (rs : PRands) (s : Session)
    (hok : cardMultisetOK s) :
    (processAIPlayOrPass rs s).gameStarted = s.gameStarted ∧
    cardMultisetOK (processAIPlayOrPass rs s) ∧
    ((processAIPlayOrPass rs s).gameState = s.gameState ∨
     (processAIPlayOrPass rs s).gameState = .AWAITING_HIGHER_LOWER) := by
  unfold processAIPlayOrPass
  rcases hget : s.players[s.currentPlayerIndex]? with _ | cp
  · exact ⟨rfl, hok, Or.inl rfl⟩
  · simp only
    by_cases hcomp : cp.isComputer = true
    · simp only [hcomp, not_true_eq_false, if_false]
      rcases hcur : s.currentCard with _ | card
      · exact ⟨rfl, hok, Or.inl rfl⟩
      · simp only
        rcases hlook : lookupAI s.aiPlayers cp.id with _ | aiPlayer
        · exact ⟨rfl, hok, Or.inl rfl⟩
        · simp only
          have hok2 : (s.deck ++ s.discardPile ++ [card]).Perm createDeck := by
            have h0 := hok
            unfold cardMultisetOK at h0
            rw [hcur] at h0
            simpa using h0
          have hok3 : cardMultisetOK { s with
              currentCard := Option.some card,
              aiPlayers := setAI s.aiPlayers cp.id
                (aiPlayer.makePlayOrPassDecision card cp.lives
                  s.players.length Option.none rs).2 } := by
            unfold cardMultisetOK
            simpa using hok2
          split
          · exact ⟨(handlePlay_inv _ hok3).1, (handlePlay_inv _ hok3).2.1,
              Or.inr (handlePlay_inv _ hok3).2.2⟩
          · exact handlePass_inv _ hok3
    · simp only [hcomp, not_false_eq_true, if_true]
      exact ⟨rfl, hok, Or.inl rfl⟩

/-- Every event preserves the session invariant. -/
theorem Inv_step {shuffle : List Card → List Card}
    (hperm : ∀ l : List Card, (shuffle l).Perm l) (s : Session) (e : Event)
    (hInv : Inv s) : Inv (step shuffle s e) := by
  have hne_of : ∀ X : GameState, X ≠ GameState.SETUP → s.gameState = X →
      s.gameState ≠ GameState.SETUP := by
    intro X hX hg
    rw [hg]
    exact hX
  cases e with
  | startGame ps =>
    by_cases hg : s.gameState = GameState.SETUP <;>
      simp only [step, hg, if_true, if_false]
    · obtain ⟨hdeck, hdisc, hcur, hst⟩ := hInv.1 hg
      constructor
      · intro h
        exact GameState.noConfusion h
      · intro h2
        refine ⟨rfl, ?_⟩
        show (shuffle createDeck ++ s.discardPile ++
          (Option.none : Option Card).toList).Perm createDeck
        rw [hdisc]
        simpa using hperm createDeck
    · exact hInv
  | playAgain =>
    by_cases hg : s.gameState = GameState.SETUP <;>
      simp only [step, hg]
    · simp only [ne_eq, not_true_eq_false, if_false]
      exact hInv
    · simp only [ne_eq, hg, not_false_eq_true, if_true]
      exact ⟨fun _ => ⟨rfl, rfl, rfl, rfl⟩, fun h => absurd rfl h⟩
  | colourGuess g =>
    by_cases hg : s.gameState = GameState.AWAITING_COLOUR_GUESS <;>
      simp only [step, hg, if_true, if_false]
    · have hne := hne_of _ (by decide) hg
      obtain ⟨hstart, hok⟩ := hInv.2 hne
      obtain ⟨h1, h2, h3⟩ := handleColourGuess_inv hperm g s hok
      constructor
      · intro h
        rcases h3 with h3 | h3
        · exact absurd (h3.symm.trans h) hne
        · exact absurd (h3.symm.trans h) (by decide)
      · intro _
        exact ⟨h1.trans hstart, h2⟩
    · exact hInv
  | keepCard =>
    by_cases hg : s.gameState = GameState.AWAITING_KEEP_OR_CHANGE <;>
      simp only [step, hg, if_true, if_false]
    · have hne := hne_of _ (by decide) hg
      obtain ⟨hstart, hok⟩ := hInv.2 hne
      obtain ⟨h1, h2, h3⟩ := handleKeepCard_inv s hok
      exact ⟨fun h => absurd (h3.symm.trans h) (by decide),
        fun _ => ⟨h1.trans hstart, h2⟩⟩
    · exact hInv
  | changeCard =>
    by_cases hg : s.gameState = GameState.AWAITING_KEEP_OR_CHANGE <;>
      simp only [step, hg, if_true, if_false]
    · have hne := hne_of _ (by decide) hg
      obtain ⟨hstart, hok⟩ := hInv.2 hne
      obtain ⟨h1, h2, h3⟩ := handleChangeCard_inv hperm s hok
      constructor
      · intro h
        rcases h3 with h3 | h3
        · exact absurd (h3.symm.trans h) hne
        · exact absurd (h3.symm.trans h) (by decide)
      · intro _
        exact ⟨h1.trans hstart, h2⟩
    · exact hInv
  | higherLower g =>
    by_cases hg : s.gameState = GameState.AWAITING_HIGHER_LOWER <;>
      simp only [step, hg, if_true, if_false]
    · have hne := hne_of _ (by decide) hg
      obtain ⟨hstart, hok⟩ := hInv.2 hne
      obtain ⟨h1, h2, h3⟩ := handleHigherLowerGuess_inv hperm g s hok
      constructor
      · intro h
        rcases h3 with h3 | h3 | h3
        · exact absurd (h3.symm.trans h) hne
        · exact absurd (h3.symm.trans h) (by decide)
        · exact absurd (h3.symm.trans h) (by decide)
      · intro _
        exact ⟨h1.trans hstart, h2⟩
    · exact hInv
  | play =>
    by_cases hg : s.gameState = GameState.PLAY_OR_PASS <;>
      simp only [step, hg, if_true, if_false]
    · have hne := hne_of _ (by decide) hg
      obtain ⟨hstart, hok⟩ := hInv.2 hne
      obtain ⟨h1, h2, h3⟩ := handlePlay_inv s hok
      exact ⟨fun h => absurd (h3.symm.trans h) (by decide),
        fun _ => ⟨h1.trans hstart, h2⟩⟩
    · exact hInv
  | pass =>
    by_cases hg : s.gameState = GameState.PLAY_OR_PASS <;>
      simp only [step, hg, if_true, if_false]
    · have hne := hne_of _ (by decide) hg
      obtain ⟨hstart, hok⟩ := hInv.2 hne
      obtain ⟨h1, h2, h3⟩ := handlePass_inv s hok
      constructor
      · intro h
        rcases h3 with h3 | h3
        · exact absurd (h3.symm.trans h) hne
        · exact absurd (h3.symm.trans h) (by decide)
      · intro _
        exact ⟨h1.trans hstart, h2⟩
    · exact hInv
  | aiPlayOrPass rs =>
    by_cases hg : s.gameState = GameState.PLAY_OR_PASS <;>
      simp only [step, hg, if_true, if_false]
    · have hne := hne_of _ (by decide) hg
      obtain ⟨hstart, hok⟩ := hInv.2 hne
      obtain ⟨h1, h2, h3⟩ := processAIPlayOrPass_inv rs s hok
      constructor
      · intro h
        rcases h3 with h3 | h3
        · exact absurd (h3.symm.trans h) hne
        · exact absurd (h3.symm.trans h) (by decide)
      · intro _
        exact ⟨h1.trans hstart, h2⟩
    · exact hInv
  | turnEnd =>
    by_cases hg : s.gameState = GameState.SHOWING_RESULT <;>
      simp only [step, hg, if_true, if_false]
    · have hne := hne_of _ (by decide) hg
      obtain ⟨hstart, hok⟩ := hInv.2 hne
      obtain ⟨h1, h2, h3⟩ := processTurnEnd_inv s hok
      constructor
      · intro h
        rcases h3 with h3 | h3 | h3
        · exact absurd (h3.symm.trans h) hne
        · exact absurd (h3.symm.trans h) (by decide)
        · exact absurd (h3.symm.trans h) (by decide)
      · intro _
        exact ⟨h1.trans hstart, h2⟩
    · exact hInv

/-- Every reachable session satisfies the invariant. -/
theorem reaches_Inv (shuffle : List Card → List Card)
    (hperm : ∀ l : List Card, (shuffle l).Perm l) (s : Session)
    (hr : Reaches shuffle s) : Inv s := by
  induction hr with
  | init =>
    exact ⟨fun _ => ⟨rfl, rfl, rfl, rfl⟩, fun h => absurd rfl h⟩
  | next e _ ih => exact Inv_step hperm _ e ih

/-- In every reachable started session the cards are conserved. -/
theorem session_cards_ok (shuffle : List Card → List Card) (s : Session)
    (hperm : ∀ l : List Card, (shuffle l).Perm l)
    (hr : Reaches shuffle s) (hstart : s.gameStarted = true) :
    (s.deck ++ s.discardPile ++ s.currentCard.toList).Perm createDeck ∧
    (s.deck ++ s.discardPile ++ s.currentCard.toList).Nodup ∧
    (s.deck ++ s.discardPile ++ s.currentCard.toList).length = 52 := by
  have hInv := reaches_Inv shuffle hperm s hr
  have hne : s.gameState ≠ GameState.SETUP := by
    intro h
    rw [(hInv.1 h).2.2.2] at hstart
    exact Bool.noConfusion hstart
  have hok := (hInv.2 hne).2
  exact ⟨hok, hok.nodup_iff.mpr createDeck_nodup,
    hok.length_eq.trans createDeck_length⟩

/-- C5: In every reachable state of an active game, deck, discard pile
and current card together are exactly the 52 distinct cards: a
permutation of the full deck, without duplicates, of length 52. -/
theorem claim_C5 (shuffle : List Card → List Card) (s : Session)
    (hperm : ∀ l : List Card, (shuffle l).Perm l)
    (hr : Reaches shuffle s) (hstart : s.gameStarted = true) :
    (s.deck ++ s.discardPile ++ s.currentCard.toList).Perm createDeck ∧
    (s.deck ++ s.discardPile ++ s.currentCard.toList).Nodup ∧
    (s.deck ++ s.discardPile ++ s.currentCard.toList).length = 52 :=
  session_cards_ok shuffle s hperm hr hstart

/-- Witness for C5, one step after game start. -/
theorem claim_C5_witness :
    ((step id initialSession (.startGame [humanOne, cpuTwo])).deck ++
      (step id initialSession (.startGame [humanOne, cpuTwo])).discardPile ++
      (step id initialSession
        (.startGame [humanOne, cpuTwo])).currentCard.toList).Perm createDeck :=
  (claim_C5 id (step id initialSession (.startGame [humanOne, cpuTwo]))
    (fun l => List.Perm.refl l) (Reaches.next _ Reaches.init) rfl).1

/-- C4: A reshuffle happens exactly when a draw is requested on an empty
deck: with a non-empty deck the discard pile and the message are
untouched and the top of the deck is drawn; with an empty deck the
discard pile is shuffled into the new deck (non-empty in any reachable
started session), cleared, and the drawn card is the top of the
reshuffled deck.  The displayed card is never drawn into any of this: it
is not in the discard pile at the moment of the draw, and the draw
leaves it on display. -/
theorem claim_C4 (shuffle : List Card → List Card) (s : Session)
    (hperm : ∀ l : List Card, (shuffle l).Perm l)
    (hr : Reaches shuffle s) (hstart : s.gameStarted = true) :
    (s.deck ≠ [] →
       (drawCard shuffle s).2.discardPile = s.discardPile ∧
       (drawCard shuffle s).2.message = s.message ∧
       (drawCard shuffle s).2.deck = s.deck.dropLast ∧
       (drawCard shuffle s).1 = s.deck.getLast?) ∧
    (s.deck = [] →
       (drawCard shuffle s).2.discardPile = [] ∧
       (drawCard shuffle s).2.deck = (shuffle s.discardPile).dropLast ∧
       (drawCard shuffle s).1 = (shuffle s.discardPile).getLast? ∧
       shuffle s.discardPile ≠ []) ∧
    (drawCard shuffle s).2.currentCard = s.currentCard ∧
    (∀ c, s.currentCard = Option.some c → c ∉ s.discardPile) := by
  obtain ⟨hok, hnodup, hlen⟩ := session_cards_ok shuffle s hperm hr hstart
  refine ⟨?_, ?_, ?_, ?_⟩
  · intro hdeck
    rcases hd : s.deck.getLast? with _ | c0
    · exact absurd (List.getLast?_eq_none_iff.mp hd) hdeck
    · unfold drawCard
      rw [hd]
      exact ⟨rfl, rfl, rfl, rfl⟩
  · intro hdeck
    have hdisc : s.discardPile ≠ [] := by
      intro h0
      rw [hdeck, h0] at hlen
      rcases hcc : s.currentCard with _ | cc <;> rw [hcc] at hlen <;>
        simp at hlen
    have hshuffled : shuffle s.discardPile ≠ [] := by
      intro h0
      exact hdisc (List.Perm.eq_nil ((hperm s.discardPile).symm.trans
        (h0 ▸ List.Perm.refl _)))
    have hd : s.deck.getLast? = Option.none :=
      List.getLast?_eq_none_iff.mpr hdeck
    rcases hs : (shuffle s.discardPile).getLast? with _ | c1
    · exact absurd (List.getLast?_eq_none_iff.mp hs) hshuffled
    · unfold drawCard
      simp only [hd, hs]
      exact ⟨trivial, trivial, trivial, hshuffled⟩
  · rcases hdraw : drawCard shuffle s with ⟨oc, s1⟩
    exact (drawCard_preserves hdraw).2.1
  · intro c hc hmem
    rw [hc, List.append_assoc] at hnodup
    obtain ⟨-, h2, -⟩ := List.nodup_append.mp hnodup
    obtain ⟨-, -, hdisj⟩ := List.nodup_append.mp h2
    exact hdisj hmem (by simp)

/-- Witness for C4, drawing from the freshly started (non-empty) deck:
no reshuffle happens and the displayed card stays. -/
theorem claim_C4_witness :
    (drawCard id (step id initialSession
        (.startGame [humanOne, cpuTwo]))).2.discardPile =
      (step id initialSession (.startGame [humanOne, cpuTwo])).discardPile ∧
    (drawCard id (step id initialSession
        (.startGame [humanOne, cpuTwo]))).2.currentCard =
      (step id initialSession (.startGame [humanOne, cpuTwo])).currentCard :=
  have h := claim_C4 id (step id initialSession
      (.startGame [humanOne, cpuTwo])) (fun l => List.Perm.refl l)
    (Reaches.next _ Reaches.init) rfl
  ⟨(h.1 (by decide)).1, h.2.2.1⟩

/-- C8 counterexample: drawing while deck and discard pile are both
empty does NOT halt the session or surface a `DeckExhausted`
diagnostic.  `drawCard` returns no card (`pop` on an empty array is
`undefined`), the colour-guess handler silently drops the event
(`if (!nextCard) return`), and the session stays in the same state with
the same players — the only trace is the routine message
"Reshuffling the deck...". -/
theorem claim_C8_counterexample :
    (drawCard id sessionExhausted).1 = Option.none ∧
    (step id sessionExhausted (.colourGuess .Red)).gameState =
      sessionExhausted.gameState ∧
    (step id sessionExhausted (.colourGuess .Red)).players =
      sessionExhausted.players ∧
    (step id sessionExhausted (.colourGuess .Red)).currentPlayerIndex =
      sessionExhausted.currentPlayerIndex ∧
    (step id sessionExhausted (.colourGuess .Red)).currentCard =
      sessionExhausted.currentCard ∧
    (step id sessionExhausted (.colourGuess .Red)).failureReason =
      Option.none ∧
    (step id sessionExhausted (.colourGuess .Red)).message =
      "Reshuffling the deck..." :=
  ⟨rfl, rfl, rfl, rfl, rfl, rfl, rfl⟩

/-- C8 (amended): If a draw is required while both the deck and the
discard pile are empty, `drawCard` returns no card and the triggering
event is silently dropped — the session continues in the same state,
players, indices and cards untouched, with only the message set to the
routine "Reshuffling the deck..." text.  No `DeckExhausted` signal,
halt, or diagnostic exists in the code. -/
theorem claim_C8_amended (shuffle : List Card → List Card)
    (hperm : ∀ l : List Card, (shuffle l).Perm l) (s : Session)
    (h1 : s.deck = []) (h2 : s.discardPile = []) :
    ((drawCard shuffle s).1 = Option.none ∧
     (drawCard shuffle s).2 =
       { s with message := "Reshuffling the deck..." }) ∧
    (s.gameState = .AWAITING_COLOUR_GUESS → ∀ g,
      step shuffle s (.colourGuess g) =
        { s with message := "Reshuffling the deck..." }) ∧
    (s.gameState = .AWAITING_HIGHER_LOWER →
      ∀ g c, s.currentCard = Option.some c →
      step shuffle s (.higherLower g) =
        { s with message := "Reshuffling the deck..." }) := by
  have hsh : shuffle [] = [] := List.Perm.eq_nil (hperm [])
  have hdraw : drawCard shuffle s =
      (Option.none, { s with message := "Reshuffling the deck..." }) := by
    unfold drawCard
    rw [h1]
    simp only [List.getLast?_nil, hsh]
    rw [h2, hsh]
    rfl
  refine ⟨⟨by rw [hdraw], by rw [hdraw]⟩, ?_, ?_⟩
  · intro hg g
    have hstep : step shuffle s (.colourGuess g) =
        handleColourGuess shuffle g s := by
      simp [step, hg]
    rw [hstep]
    unfold handleColourGuess
    simp only [hdraw]
  · intro hg g c hcc
    have hstep : step shuffle s (.higherLower g) =
        handleHigherLowerGuess shuffle g s := by
      simp [step, hg]
    rw [hstep]
    unfold handleHigherLowerGuess
    simp only [hcc, hdraw]

/-- Witness for the amended C8, at the concrete exhausted session. -/
theorem claim_C8_amended_witness :
    (drawCard id sessionExhausted).1 = Option.none ∧
    step id sessionExhausted (.colourGuess .Red) =
      { sessionExhausted with message := "Reshuffling the deck..." } :=
  have h := claim_C8_amended id (fun l => List.Perm.refl l) sessionExhausted
    rfl rfl
  ⟨h.1.1, h.2.1 rfl .Red⟩

end POP
